import Mathlib

/-!
Verification of the context-retrieval and relevance-ranking engine of the
ai-assistant backend.

The development is a shallow embedding of the Python sources
app/services/context_service.py, app/services/query_analyzer.py and
app/services/embedding_service.py.  Conventions used throughout:

* Python floats are modelled as exact rationals.  The single inexact float
  primitive that occurs, math.sqrt, is passed in as an explicit function
  argument sqrtFn : Q -> Q (IEEE sqrt maps each representable rational to a
  representable rational, so this is the honest type of the runtime
  operation).
* Python datetimes are modelled by PyDateTime below, including the
  aware/naive distinction carried in the tz field; subtracting an aware and
  a naive datetime raises TypeError in Python, modelled as pySub returning
  none.
* Database queries are modelled over explicit row lists.  Predicates that the
  SQL engine evaluates structurally (equality filters, ILIKE, date bounds,
  ORDER BY, LIMIT) are executed in the model; opaque engine features
  (pgvector similarity ranking, tsquery matching, the entity tables) are
  modelled as oracle functions that select rows of the table, with the
  WHERE-clause filters still enforced on the returned rows, exactly as the
  SQL guarantees.
* Python dict results with optional keys are modelled as structures with
  Option fields; a key that a given code path never inserts is none.
* list(set(xs)) is modelled as xs.dedup; Python set iteration order is
  implementation defined, the model fixes first-occurrence order.
-/

/-- Python truthiness of an optional string: None and the empty string are
falsy. -/
def pyStrTruthy : Option String → Bool
  | none => false
  | some s => !(s == "")

/-- Python truthiness of an optional list: None and the empty list are
falsy. -/
def pyTruthyList {α : Type} : Option (List α) → Bool
  | some (_ :: _) => true
  | _ => false

/-- Python x or y for optional strings: returns the first operand when it is
truthy, otherwise the second operand. -/
def pyOrStr (a b : Option String) : Option String :=
  if pyStrTruthy a then a else b

/-- List prefix test (Boolean, by decidable equality). -/
def isPrefixL : List Char → List Char → Bool
  | [], _ => true
  | _ :: _, [] => false
  | a :: as, b :: bs => a = b && isPrefixL as bs

/-- Boolean infix test on character lists: the Python operator needle in
hay. -/
def hasInfixL (needle : List Char) : List Char → Bool
  | [] => isPrefixL needle []
  | c :: t => isPrefixL needle (c :: t) || hasInfixL needle t

/-- Python substring containment needle in hay on strings. -/
def strHas (hay needle : String) : Bool :=
  hasInfixL needle.toList hay.toList

/-- The characters Python treats as regex and str.split whitespace. -/
def pyIsSpace (c : Char) : Bool :=
  c = ' ' || c = '\t' || c = '\n' || c = '\x0d' || c = '\x0c' || c = '\x0b'

/-- Helper for pySplit: accumulate the current word (reversed). -/
def pySplitAux : List Char → List Char → List (List Char)
  | [], cur => if cur.isEmpty then [] else [cur.reverse]
  | c :: t, cur =>
    if pyIsSpace c then
      if cur.isEmpty then pySplitAux t [] else cur.reverse :: pySplitAux t []
    else pySplitAux t (c :: cur)

/-- Python str.split() with no argument: split on whitespace runs, dropping
empty pieces. -/
def pySplit (s : String) : List String :=
  (pySplitAux s.toList []).map String.mk

/-- Helper for pyTitle: the Boolean argument records whether the previous
character was alphabetic. -/
def pyTitleAux : Bool → List Char → List Char
  | _, [] => []
  | prevAlpha, c :: t =>
    let c2 := if c.isAlpha then (if prevAlpha then c.toLower else c.toUpper) else c
    c2 :: pyTitleAux c.isAlpha t

/-- Python str.title(): capitalise the first letter of every alphabetic run,
lower-case the rest. -/
def pyTitle (s : String) : String :=
  String.mk (pyTitleAux false s.toList)

/-- Python email.split("@")[0]: the characters before the first at-sign. -/
def beforeAt (s : String) : String :=
  String.mk (s.toList.takeWhile (fun c => !(c = '@')))

/-- Python round() to an integer on an exact rational value: round half to
even. -/
def pyRoundInt (q : ℚ) : ℤ :=
  let f := ⌊q⌋
  if q - f < 1/2 then f
  else if (1 : ℚ)/2 < q - f then f + 1
  else if f % 2 = 0 then f else f + 1

/-- Python round(x, 3). -/
def round3 (q : ℚ) : ℚ :=
  (pyRoundInt (q * 1000) : ℚ) / 1000

/-! ## The datetime model

Gregorian-calendar conversions follow the standard civil-from-days /
days-from-civil algorithms.  Integer division below is Lean Int division,
which for the positive divisors used here agrees with floor division. -/

/-- Days since 1970-01-01 of a Gregorian civil date. -/
def daysFromCivil (y : Int) (m d : Nat) : Int :=
  let yAdj : Int := if m ≤ 2 then y - 1 else y
  let era : Int := yAdj / 400
  let yoe : Int := yAdj - era * 400
  let mp : Int := if 2 < m then (m : Int) - 3 else (m : Int) + 9
  let doy : Int := (153 * mp + 2) / 5 + (d : Int) - 1
  let doe : Int := yoe * 365 + yoe / 4 - yoe / 100 + doy
  era * 146097 + doe - 719468

/-- Gregorian civil date of a count of days since 1970-01-01. -/
def civilFromDays (z0 : Int) : Int × Nat × Nat :=
  let z := z0 + 719468
  let era : Int := z / 146097
  let doe : Int := z - era * 146097
  let yoe : Int := (doe - doe / 1460 + doe / 36524 - doe / 146096) / 365
  let y : Int := yoe + era * 400
  let doy : Int := doe - (365 * yoe + yoe / 4 - yoe / 100)
  let mp : Int := (5 * doy + 2) / 153
  let d : Int := doy - (153 * mp + 2) / 5 + 1
  let m : Int := if mp < 10 then mp + 3 else mp - 9
  (if m ≤ 2 then y + 1 else y, m.toNat, d.toNat)

/-- A Python datetime (microseconds are not used by the code under study).
tz is None for a naive value and the UTC offset in minutes for an aware
value; datetime.timezone.utc is some 0. -/
structure PyDateTime where
  year : Int
  month : Nat
  day : Nat
  hour : Nat := 0
  minute : Nat := 0
  second : Nat := 0
  tz : Option Int := none
deriving DecidableEq, Repr

/-- Seconds since epoch of the wall-clock fields, ignoring the tz. -/
def toSecsNaive (dt : PyDateTime) : Int :=
  daysFromCivil dt.year dt.month dt.day * 86400
    + dt.hour * 3600 + dt.minute * 60 + dt.second

/-- The UTC instant of a datetime (a naive value is read as UTC; SQL
timestamptz comparisons only ever see aware values). -/
def dtUtcSecs (dt : PyDateTime) : Int :=
  toSecsNaive dt - (dt.tz.getD 0) * 60

/-- Python datetime subtraction, in seconds.  Mixing an aware and a naive
operand raises TypeError, modelled as none. -/
def pySub (a b : PyDateTime) : Option Int :=
  match a.tz, b.tz with
  | some _, some _ => some (dtUtcSecs a - dtUtcSecs b)
  | none, none => some (toSecsNaive a - toSecsNaive b)
  | _, _ => none

/-- The days attribute of a Python timedelta of the given seconds. -/
def tdDays (secs : Int) : Int := secs / 86400

/-- Rebuild a datetime from seconds since epoch, attaching the given tz. -/
def fromSecs (secs : Int) (tz : Option Int) : PyDateTime :=
  let days := secs / 86400
  let rem := (secs % 86400).toNat
  let c := civilFromDays days
  ⟨c.1, c.2.1, c.2.2, rem / 3600, rem % 3600 / 60, rem % 60, tz⟩

/-- datetime + timedelta(seconds=delta): operates on the wall-clock fields,
keeping the tz. -/
def addSecs (dt : PyDateTime) (delta : Int) : PyDateTime :=
  fromSecs (toSecsNaive dt + delta) dt.tz

/-- datetime + timedelta(days=n). -/
def addDays (dt : PyDateTime) (n : Int) : PyDateTime :=
  addSecs dt (n * 86400)

/-- dt.replace(hour=0, minute=0, second=0). -/
def replaceMidnight (dt : PyDateTime) : PyDateTime :=
  { dt with hour := 0, minute := 0, second := 0 }

/-- dt.replace(day=1). -/
def replaceDay1 (dt : PyDateTime) : PyDateTime :=
  { dt with day := 1 }

/-- dt.replace(tzinfo=None). -/
def stripTz (dt : PyDateTime) : PyDateTime :=
  { dt with tz := none }

/-- Python datetime.weekday(): Monday is 0. -/
def pyWeekday (dt : PyDateTime) : Int :=
  (daysFromCivil dt.year dt.month dt.day + 3) % 7

/-- datetime.min.replace(tzinfo=timezone.utc). -/
def pyDatetimeMinUtc : PyDateTime := ⟨1, 1, 1, 0, 0, 0, some 0⟩

/-- datetime(year, month, 1, tzinfo=timezone.utc). -/
def monthStartUtc (y : Int) (m : Nat) : PyDateTime := ⟨y, m, 1, 0, 0, 0, some 0⟩

/-- First instant of the following month minus one second, as computed by the
analyzer for the last day of a month. -/
def monthEndUtc (y : Int) (m : Nat) : PyDateTime :=
  addSecs (if m = 12 then monthStartUtc (y + 1) 1 else monthStartUtc y (m + 1)) (-1)

/-! ## A stable descending sort

Python list.sort(key=k, reverse=True) is a stable sort placing larger keys
first.  pySortDesc ge is stable for any comparator ge a b that answers
whether a may stay in front of b (true on equal keys). -/

/-- Insert x behind every element y with ge y x; used by pySortDesc. -/
def insertGeB {α : Type} (ge : α → α → Bool) (x : α) : List α → List α
  | [] => [x]
  | y :: ys => if ge y x then y :: insertGeB ge x ys else x :: y :: ys

/-- Stable insertion sort; elements are processed in the original order, each
one placed behind existing elements it does not strictly beat. -/
def pySortDesc {α : Type} (ge : α → α → Bool) (l : List α) : List α :=
  l.foldl (fun acc x => insertGeB ge x acc) []

/-- Comparator for sorting by a rational key, descending. -/
def qGe {α : Type} (f : α → ℚ) : α → α → Bool :=
  fun a b => f b ≤ f a

/-- Comparator for SQL ORDER BY timestamp DESC, which in PostgreSQL places
NULLs first. -/
def sqlCreatedGe {α : Type} (f : α → Option PyDateTime) : α → α → Bool :=
  fun a b =>
    match f a, f b with
    | none, _ => true
    | some _, none => false
    | some x, some y => dtUtcSecs y ≤ dtUtcSecs x


/-! ## Result items

The retrieval strategies communicate through Python dicts; RItem models such
a dict, with Option fields for keys that some strategies do not insert.  The
metadata sub-dict is carried both as the individual fields the scorer reads
(from, to, assignee, reporter) and as the text serialisation the metadata
search scans. -/

/-- One retrieval-result dict. -/
structure RItem where
  id : String
  source : String
  sourceId : String := ""
  contentType : String := ""
  title : Option String := none
  summary : Option String := none
  content : Option String := none
  metaFrom : Option String := none
  metaTo : Option (List String) := none
  metaAssignee : Option String := none
  metaReporter : Option String := none
  metaRole : Option String := none
  metaIsCurrentSession : Option Bool := none
  sourceCreatedAt : Option PyDateTime := none
  semanticScore : Option ℚ := none
  chunkIndex : Option Nat := none
  ftsRank : Option ℚ := none
  entityMatch : Option String := none
  mentionContext : Option String := none
  retrievalMethod : String := ""
  relevanceScore : Option ℚ := none
deriving DecidableEq, Repr

/-- An entry of the entities list returned by retrieve. -/
structure EntityOut where
  etype : String
  name : String
  email : Option String := none
deriving DecidableEq, Repr

/-- A row returned by the per-word Entity lookup of
ContextService._extract_query_entities. -/
structure QEnt where
  id : String
  name : String
  etype : String
deriving DecidableEq, Repr

/-! ## ContextService._merge_results -/

/-- One step of the merge: if the id is already present, fill in the signal
fields that the existing record is missing; otherwise append. -/
def insertMerge (acc : List RItem) (item : RItem) : List RItem :=
  if acc.any (fun e => e.id = item.id) then
    acc.map (fun e =>
      if e.id = item.id then
        { e with
          semanticScore := if e.semanticScore.isNone then item.semanticScore
                           else e.semanticScore
          ftsRank := if e.ftsRank.isNone then item.ftsRank else e.ftsRank
          entityMatch := if e.entityMatch.isNone then item.entityMatch
                         else e.entityMatch }
      else e)
  else acc ++ [item]

/-- ContextService._merge_results: deduplicate by id, keeping the first
record per id and unioning the per-strategy signal fields onto it. -/
def mergeResults (results : List RItem) : List RItem :=
  results.foldl insertMerge []

/-! ## ContextService._calculate_relevance -/

/-- ContextService.SOURCE_PRIORITY.get(source, 0.05). -/
def sourcePriorityOf (s : String) : ℚ :=
  if s = "gmail" then 1/10
  else if s = "outlook" then 1/10
  else if s = "gdrive" then 2/25
  else if s = "onedrive" then 2/25
  else if s = "jira" then 7/100
  else if s = "calendar" then 1/20
  else 1/20

/-- The recency term of _calculate_relevance.  The source_created_at strings
are isoformat output, so fromisoformat round-trips them to the stored
datetime; the code then strips the tzinfo from the parsed value and
subtracts it from the timezone-aware now, and any TypeError or ValueError is
swallowed, leaving the score at 0. -/
def recencyTermCode (now : PyDateTime) (createdAt : Option PyDateTime) : ℚ :=
  match createdAt with
  | none => 0
  | some created =>
    match pySub now (stripTz created) with
    | none => 0
    | some secs =>
      let daysOld : Int := tdDays secs
      max 0 (1/5 - ((daysOld : ℚ) / 365) * (1/5))

/-- ContextService._extract_item_entities: entity names harvested from the
item metadata (the from, to, assignee and reporter keys), as a set. -/
def extractItemEntities (item : RItem) : List String :=
  let l1 := match item.metaFrom with
    | some f => [(beforeAt f).toLower]
    | none => []
  let l2 := match item.metaTo with
    | some tos => tos.map (fun e => (beforeAt e).toLower)
    | none => []
  let l3 := match item.metaAssignee with
    | some a => [(beforeAt a).toLower]
    | none => []
  let l4 := match item.metaReporter with
    | some r => [(beforeAt r).toLower]
    | none => []
  (l1 ++ l2 ++ l3 ++ l4).dedup

/-- The entity-match term of _calculate_relevance. -/
def entityTerm (queryEntityNames : List String) (item : RItem) : ℚ :=
  let nMatches := ((extractItemEntities item).filter
    (fun n => queryEntityNames.contains n)).length
  let base := min (3/10) ((nMatches : ℚ) * (1/10))
  if pyStrTruthy item.entityMatch then max base (1/5) else base

/-- The full-text term of _calculate_relevance. -/
def ftsTerm (item : RItem) : ℚ :=
  min (1/10) (item.ftsRank.getD 0 * (1/20))

/-- The explicit-source boost of _calculate_relevance: 0.4 when the item
source is among the explicitly detected sources. -/
def boostTerm (explicitSources : Option (List String)) (source : String) : ℚ :=
  match explicitSources with
  | some es => if es.contains source then 2/5 else 0
  | none => 0

/-- The unrounded final score of one item in _calculate_relevance. -/
def calcItemScore (now : PyDateTime) (queryEntityNames : List String)
    (explicitSources : Option (List String)) (item : RItem) : ℚ :=
  let semanticScore := item.semanticScore.getD (1/2)
  let source := item.source.toLower
  semanticScore * (1/2)
    + recencyTermCode now item.sourceCreatedAt
    + entityTerm queryEntityNames item
    + sourcePriorityOf source
    + ftsTerm item
    + boostTerm explicitSources source

/-- ContextService._calculate_relevance: store the rounded score on every
item.  The query_date argument is accepted and unused, as in the source. -/
def calcRelevance (now : PyDateTime) (items : List RItem)
    (queryEntities : List QEnt) (queryDate : Option PyDateTime)
    (explicitSources : Option (List String)) : List RItem :=
  let _ := queryDate
  let queryEntityNames := queryEntities.map (fun e => e.name.toLower)
  items.map (fun item =>
    let score := round3 (calcItemScore now queryEntityNames explicitSources item)
    { item with relevanceScore := some score })

/-! ## The database and external-service model -/

/-- A row of the knowledge_items table.  metaText is the text serialisation
of the metadata JSONB that cast(item_metadata, Text) produces; the
individually modelled keys (from, to, assignee, reporter) are the ones the
scorer reads. -/
structure KItem where
  id : String
  userId : String
  sourceType : String
  sourceId : String := ""
  contentType : String := ""
  title : Option String := none
  summary : Option String := none
  content : Option String := none
  metaFrom : Option String := none
  metaTo : Option (List String) := none
  metaAssignee : Option String := none
  metaReporter : Option String := none
  metaText : String := ""
  sourceCreatedAt : Option PyDateTime := none
deriving DecidableEq, Repr

/-- A row of the pgvector similarity query of _semantic_search: an index
into the knowledge_items table plus the joined chunk columns and the
computed similarity 1 - cosine_distance. -/
structure SemRow where
  idx : Nat
  chunkText : Option String := none
  chunkIndex : Nat := 0
  similarity : ℚ
deriving DecidableEq, Repr

/-- A row of the ts_rank query of _fulltext_search. -/
structure FtsRow where
  idx : Nat
  rank : ℚ
deriving DecidableEq, Repr

/-- A row of the entity-mention join of _entity_search. -/
structure EntRow where
  idx : Nat
  mentionContext : Option String := none
deriving DecidableEq, Repr

/-- A row of the chat_sessions table. -/
structure PySession where
  id : String
  userId : String
  title : Option String := none
  sessionType : Option String := none
  updatedAt : PyDateTime
deriving DecidableEq, Repr

/-- A row of the chat_messages table. -/
structure PyMessage where
  id : String
  sessionId : String
  role : String := "user"
  content : String := ""
  createdAt : Option PyDateTime := none
deriving DecidableEq, Repr

/-- Date of an LLM payload field: absent (or JSON-falsy), present with a
string datetime.fromisoformat parses, or present with a malformed string
(parsing raises ValueError). -/
inductive LlmDate where
  | absent : LlmDate
  | valid : PyDateTime → LlmDate
  | invalid : LlmDate
deriving DecidableEq, Repr

/-- The parsed JSON payload of a successful LLM query-analysis call. -/
structure LlmOut where
  entities : List String := []
  sources : List String := []
  dateFrom : LlmDate := .absent
  dateTo : LlmDate := .absent
  timeType : Option String := none
  intent : Option String := none
deriving DecidableEq, Repr

/-- The world a retrieval call runs against: the table rows the model
executes queries over, and oracle functions for the external services and
the opaque SQL engine features (vector ranking, tsquery matching, the entity
tables).  Oracle row lists refer to knowledge items by index; the
WHERE-clause filters of the corresponding SQL are re-enforced on the rows,
exactly as the engine guarantees. -/
structure Model where
  items : List KItem := []
  sessions : List PySession := []
  messages : List PyMessage := []
  embedApi : String → Option (List ℚ) := fun _ => none
  embeddingDimensions : Nat := 1536
  sqrtFn : ℚ → ℚ := id
  semanticRows : String → List ℚ → Option (List String) → Option PyDateTime →
    Option PyDateTime → Nat → List SemRow := fun _ _ _ _ _ _ => []
  ftsRows : String → String → Option (List String) → Option PyDateTime →
    Option PyDateTime → Nat → List FtsRow := fun _ _ _ _ _ _ => []
  entityRows : String → String → Option (List String) → Option PyDateTime →
    Option PyDateTime → Nat → List EntRow := fun _ _ _ _ _ _ => []
  entityLookup : String → String → List QEnt := fun _ _ => []
  llm : String → Option LlmOut := fun _ => none

/-! ## SQL building blocks -/

/-- The source filter: applied only when the Python list is truthy. -/
def sourceFilterOk (sources : Option (List String)) (it : KItem) : Bool :=
  if pyTruthyList sources then (sources.getD []).contains it.sourceType else true

/-- source_created_at is at least date_from; in SQL a NULL column fails the
comparison. -/
def dateFromOk (df : Option PyDateTime) (it : KItem) : Bool :=
  match df with
  | none => true
  | some d =>
    match it.sourceCreatedAt with
    | none => false
    | some c => dtUtcSecs d ≤ dtUtcSecs c

/-- source_created_at is at most date_to; NULL fails. -/
def dateToOk (dt : Option PyDateTime) (it : KItem) : Bool :=
  match dt with
  | none => true
  | some d =>
    match it.sourceCreatedAt with
    | none => false
    | some c => dtUtcSecs c ≤ dtUtcSecs d

/-- A SELECT over knowledge_items with the standard filters, ORDER BY
source_created_at DESC (NULLs first) and LIMIT. -/
def sqlItemQuery (items : List KItem) (userId : String) (cond : KItem → Bool)
    (sources : Option (List String)) (df dt : Option PyDateTime)
    (lim : Nat) : List KItem :=
  (pySortDesc (sqlCreatedGe (fun it => it.sourceCreatedAt))
    (items.filter (fun it =>
      it.userId = userId && cond it && sourceFilterOk sources it
        && dateFromOk df it && dateToOk dt it))).take lim

/-- The fields every strategy dict copies from a knowledge item. -/
def kitemBase (it : KItem) : RItem :=
  { id := it.id, source := it.sourceType, sourceId := it.sourceId,
    contentType := it.contentType, title := it.title, summary := it.summary,
    content := it.content, metaFrom := it.metaFrom, metaTo := it.metaTo,
    metaAssignee := it.metaAssignee, metaReporter := it.metaReporter,
    sourceCreatedAt := it.sourceCreatedAt }

/-! ## The retrieval strategies -/

/-- ContextService._semantic_search: embed the query (empty result if the
embedding API fails), then run the pgvector similarity query. -/
def semanticSearch (m : Model) (userId query : String)
    (sources : Option (List String)) (df dt : Option PyDateTime)
    (lim : Nat) : List RItem :=
  match m.embedApi query with
  | none => []
  | some emb =>
    ((m.semanticRows userId emb sources df dt lim).filterMap (fun r =>
      match m.items[r.idx]? with
      | some it =>
        if it.userId = userId && sourceFilterOk sources it
            && dateFromOk df it && dateToOk dt it then
          some { kitemBase it with
                 content := pyOrStr r.chunkText it.content,
                 semanticScore := some r.similarity,
                 chunkIndex := some r.chunkIndex,
                 retrievalMethod := "semantic" }
        else none
      | none => none)).take lim

/-- ContextService._fulltext_search over the tsquery oracle. -/
def ftsSearch (m : Model) (userId query : String)
    (sources : Option (List String)) (df dt : Option PyDateTime)
    (lim : Nat) : List RItem :=
  ((m.ftsRows userId query sources df dt lim).filterMap (fun r =>
    match m.items[r.idx]? with
    | some it =>
      if it.userId = userId && sourceFilterOk sources it
          && dateFromOk df it && dateToOk dt it then
        some { kitemBase it with
               ftsRank := some r.rank,
               retrievalMethod := "fulltext" }
      else none
    | none => none)).take lim

/-- ContextService._entity_search over the entity-mention oracle; the oracle
returns no rows when no entity record matches the name. -/
def entitySearch (m : Model) (userId entityName : String)
    (sources : Option (List String)) (df dt : Option PyDateTime)
    (lim : Nat) : List RItem :=
  ((m.entityRows userId entityName sources df dt lim).filterMap (fun r =>
    match m.items[r.idx]? with
    | some it =>
      if it.userId = userId && sourceFilterOk sources it
          && dateFromOk df it && dateToOk dt it then
        some { kitemBase it with
               entityMatch := some entityName,
               mentionContext := r.mentionContext,
               retrievalMethod := "entity" }
      else none
    | none => none)).take lim

/-- ILIKE %kw% on a nullable column, with kw already lower-cased. -/
def ilikeOpt (field : Option String) (kw : String) : Bool :=
  match field with
  | some t => strHas t.toLower kw
  | none => false

/-- ContextService._keyword_search: tokens of length at least 3, the first 5
of them as ILIKE disjuncts, scored by the fraction of all tokens found. -/
def keywordSearch (items : List KItem) (userId query : String)
    (sources : Option (List String)) (df dt : Option PyDateTime)
    (lim : Nat) : List RItem :=
  let keywords := ((pySplit query).filter (fun w => 3 ≤ w.length)).map String.toLower
  if keywords.isEmpty then []
  else
    let kws5 := keywords.take 5
    let cond := fun (it : KItem) => kws5.any (fun kw =>
      ilikeOpt it.title kw || ilikeOpt it.content kw || ilikeOpt it.summary kw)
    let rows := sqlItemQuery items userId cond sources df dt lim
    rows.map (fun it =>
      let contentLower := ((it.title.getD "") ++ " " ++ (it.content.getD "")
        ++ " " ++ (it.summary.getD "")).toLower
      let nMatch := (keywords.filter (fun kw => strHas contentLower kw)).length
      let score : ℚ := (nMatch : ℚ) / (keywords.length : ℚ)
      { kitemBase it with
          semanticScore := some score,
          retrievalMethod := "keyword" })

/-- ContextService._metadata_search: per extracted entity, a case-insensitive
substring search over the serialised metadata, tagged with a fixed 0.8 base
score. -/
def metadataSearch (items : List KItem) (userId : String)
    (entities : List String) (sources : Option (List String))
    (df dt : Option PyDateTime) (lim : Nat) : List RItem :=
  if entities.isEmpty then []
  else
    (entities.map (fun entity =>
      let el := entity.toLower
      let rows := sqlItemQuery items userId
        (fun it => strHas it.metaText.toLower el) sources df dt lim
      rows.map (fun it =>
        { kitemBase it with
            entityMatch := some entity,
            retrievalMethod := "metadata",
            semanticScore := some (4/5) }))).flatten

/-- Python sort key source_created_at or datetime.min(utc), descending. -/
def pyCreatedGe (a b : KItem) : Bool :=
  dtUtcSecs (b.sourceCreatedAt.getD pyDatetimeMinUtc)
    ≤ dtUtcSecs (a.sourceCreatedAt.getD pyDatetimeMinUtc)

/-- ContextService._get_most_recent: with more than one requested source a
balanced per-source slice of max(2, limit // num_sources) each, otherwise a
single query; then re-sort by timestamp and truncate. -/
def getMostRecent (items : List KItem) (userId : String)
    (sources : Option (List String)) (lim : Nat) : List RItem :=
  let allItems :=
    if pyTruthyList sources && 1 < (sources.getD []).length then
      let ss := sources.getD []
      let perSourceLimit := max 2 (lim / ss.length)
      (ss.map (fun src =>
        (pySortDesc (sqlCreatedGe (fun it => it.sourceCreatedAt))
          (items.filter (fun it => it.userId = userId && it.sourceType = src))).take
            perSourceLimit)).flatten
    else
      sqlItemQuery items userId (fun _ => true) sources none none lim
  let final := (pySortDesc pyCreatedGe allItems).take lim
  final.map (fun it =>
    { kitemBase it with
        relevanceScore := some (9/10),
        retrievalMethod := "temporal" })

/-- ContextService._extract_query_entities: per query word of length at
least 3, an entity lookup limited to 5 rows. -/
def extractQueryEntities (m : Model) (userId query : String) : List QEnt :=
  (((pySplit query.toLower).filter (fun w => 3 ≤ w.length)).map
    (fun w => (m.entityLookup userId w).take 5)).flatten

/-- Helper for extractEntities: the keys list carries the dict keys already
emitted. -/
def extractEntitiesAux : List RItem → List String → List EntityOut
  | [], _ => []
  | item :: rest, keys =>
    let fromPart : List (String × EntityOut) :=
      if item.source = "gmail" || item.source = "outlook" then
        match item.metaFrom with
        | some email =>
          if keys.contains email then []
          else [(email, ⟨"person", pyTitle (beforeAt email), some email⟩)]
        | none => []
      else []
    let keys1 := keys ++ fromPart.map (fun p => p.1)
    let entPart : List (String × EntityOut) :=
      if pyStrTruthy item.entityMatch then
        let name := item.entityMatch.getD ""
        if keys1.contains name then []
        else [(name, ⟨"person", name, none⟩)]
      else []
    let keys2 := keys1 ++ entPart.map (fun p => p.1)
    (fromPart ++ entPart).map (fun p => p.2) ++ extractEntitiesAux rest keys2

/-- ContextService._extract_entities: unique people from the result items. -/
def extractEntities (items : List RItem) : List EntityOut :=
  extractEntitiesAux items []

/-- ContextService._resolve_time_filter. -/
def resolveTimeFilter (now : PyDateTime) (tf : String) :
    Option PyDateTime × Option PyDateTime :=
  if tf = "today" then (some (replaceMidnight now), some now)
  else if tf = "yesterday" then
    (some (replaceMidnight (addDays now (-1))), some (replaceMidnight now))
  else if tf = "last_week" then (some (addDays now (-7)), some now)
  else if tf = "last_month" then (some (addDays now (-30)), some now)
  else if tf = "last_3_months" then (some (addDays now (-90)), some now)
  else if tf = "last_6_months" then (some (addDays now (-180)), some now)
  else (none, none)

/-! ## ContextService.retrieve -/

/-- The concatenated strategy results of retrieve, including fallback rule A
(keyword search when semantic is empty) and fallback rule B (full-text then
keyword without the source filter when a source filter yielded nothing). -/
def retrieveCandidates (m : Model) (userId query : String)
    (sources : Option (List String)) (entityFilter : Option String)
    (dateFrom dateTo : Option PyDateTime) (lim : Nat) : List RItem :=
  let semanticResults := semanticSearch m userId query sources dateFrom dateTo (lim * 2)
  let entityResults :=
    if pyStrTruthy entityFilter then
      entitySearch m userId (entityFilter.getD "") sources dateFrom dateTo lim
    else []
  let ftsResults := ftsSearch m userId query sources dateFrom dateTo lim
  let keywordResults :=
    if semanticResults.isEmpty then
      keywordSearch m.items userId query sources dateFrom dateTo (lim * 2)
    else []
  let results := semanticResults ++ entityResults ++ ftsResults ++ keywordResults
  if pyTruthyList sources && results.isEmpty then
    let ftsFallback := ftsSearch m userId query none dateFrom dateTo lim
    let keywordFallback :=
      if ftsFallback.isEmpty then
        keywordSearch m.items userId query none dateFrom dateTo (lim * 2)
      else []
    results ++ ftsFallback ++ keywordFallback
  else results

/-- The return dict of ContextService.retrieve. -/
structure RetrieveResult where
  items : List RItem
  entities : List EntityOut
  total : Nat
deriving DecidableEq, Repr

/-- ContextService.retrieve: resolve the time filter, fan the strategies
out, merge, score, sort descending and truncate. -/
def retrieve (m : Model) (now : PyDateTime) (userId query : String)
    (sources : Option (List String)) (timeFilter : Option String)
    (entityFilter : Option String) (dateFrom0 dateTo0 : Option PyDateTime)
    (lim : Nat) (explicitSources : Option (List String)) : RetrieveResult :=
  let dates :=
    if pyStrTruthy timeFilter then resolveTimeFilter now (timeFilter.getD "")
    else (dateFrom0, dateTo0)
  let results := retrieveCandidates m userId query sources entityFilter dates.1 dates.2 lim
  let merged := mergeResults results
  let queryEntities := extractQueryEntities m userId query
  let scored := calcRelevance now merged queryEntities dates.1 explicitSources
  let sorted := pySortDesc (qGe (fun it => it.relevanceScore.getD 0)) scored
  let finalItems := sorted.take lim
  ⟨finalItems, extractEntities finalItems, finalItems.length⟩

/-! ## QueryAnalyzer

The regex patterns of query_analyzer.py are embedded as explicit scanners
with Python re.search / re.findall semantics: positions are tried left to
right, alternations in written order, with the local backtracking the
patterns need (greedy optional groups, digit runs). -/

/-- QueryAnalyzer result dataclass. -/
structure QueryAnalysis where
  query : String
  entities : List String := []
  sources : List String := []
  dateFrom : Option PyDateTime := none
  dateTo : Option PyDateTime := none
  timeType : Option String := none
  intent : String := "search"
  isTemporal : Bool := false
  confidence : ℚ := 0
deriving DecidableEq, Repr

/-- QueryAnalyzer.SOURCE_KEYWORDS in dict insertion order. -/
def sourceKeywordTable : List (String × List String) :=
  [("email", ["gmail", "outlook"]), ("emails", ["gmail", "outlook"]),
   ("mail", ["gmail", "outlook"]), ("inbox", ["gmail", "outlook"]),
   ("message", ["gmail", "outlook"]), ("messages", ["gmail", "outlook"]),
   ("document", ["gdrive", "onedrive"]), ("documents", ["gdrive", "onedrive"]),
   ("doc", ["gdrive", "onedrive"]), ("docs", ["gdrive", "onedrive"]),
   ("file", ["gdrive", "onedrive"]), ("files", ["gdrive", "onedrive"]),
   ("task", ["jira"]), ("tasks", ["jira"]), ("ticket", ["jira"]),
   ("tickets", ["jira"]), ("issue", ["jira"]), ("issues", ["jira"]),
   ("jira", ["jira"]), ("assigned", ["jira"]), ("assignee", ["jira"]),
   ("meeting", ["calendar"]), ("meetings", ["calendar"]),
   ("calendar", ["calendar"]), ("event", ["calendar"]),
   ("events", ["calendar"]), ("appointment", ["calendar"]),
   ("schedule", ["calendar"])]

/-- QueryAnalyzer.PAST_TEMPORAL. -/
def pastTemporalKeywords : List String :=
  ["last", "latest", "recent", "newest", "previous", "yesterday", "ago"]

/-- QueryAnalyzer.FUTURE_TEMPORAL. -/
def futureTemporalKeywords : List String :=
  ["next", "upcoming", "coming up", "tomorrow", "scheduled", "future"]

/-- QueryAnalyzer.MONTHS. -/
def monthsTable : List (String × Nat) :=
  [("january", 1), ("jan", 1), ("february", 2), ("feb", 2), ("march", 3),
   ("mar", 3), ("april", 4), ("apr", 4), ("may", 5), ("june", 6), ("jun", 6),
   ("july", 7), ("jul", 7), ("august", 8), ("aug", 8), ("september", 9),
   ("sep", 9), ("sept", 9), ("october", 10), ("oct", 10), ("november", 11),
   ("nov", 11), ("december", 12), ("dec", 12)]

/-- MONTHS.get(name). -/
def monthNum (name : String) : Option Nat :=
  (monthsTable.find? (fun p => p.1 = name)).map (fun p => p.2)

/-- The month alternation of the date regexes, in written order. -/
def monthAlternatives : List String :=
  ["january", "february", "march", "april", "may", "june", "july", "august",
   "september", "october", "november", "december", "jan", "feb", "mar",
   "apr", "jun", "jul", "aug", "sep", "sept", "oct", "nov", "dec"]

/-- Match a literal at the head, returning the remainder. -/
def litP (lit s : List Char) : Option (List Char) :=
  if isPrefixL lit s then some (s.drop lit.length) else none

/-- Regex whitespace-plus: consume one or more whitespace characters. -/
def wsPlus (s : List Char) : Option (List Char × List Char) :=
  let p := s.span pyIsSpace
  if p.1.isEmpty then none else some p

/-- Try each pattern position left to right, as re.search does. -/
def searchPat {β : Type} (tryAt : List Char → Option β) : List Char → Option β
  | [] => tryAt []
  | c :: t => (tryAt (c :: t)) <|> searchPat tryAt t

/-- Numeric value of a digit run. -/
def digitsVal (ds : List Char) : Nat :=
  ds.foldl (fun acc c => acc * 10 + (c.toNat - 48)) 0

/-- One position of the month-plus-year regex: a month alternative followed
by whitespace and four digits. -/
def matchMonthYearAt (s : List Char) : Option (String × Nat) :=
  monthAlternatives.findSome? (fun name =>
    match litP name.toList s with
    | none => none
    | some r1 =>
      match wsPlus r1 with
      | none => none
      | some (_, r2) =>
        let ds := r2.take 4
        if ds.length = 4 && ds.all Char.isDigit then some (name, digitsVal ds)
        else none)

/-- One position of the last-month regex: the literal last, whitespace, then
a month alternative. -/
def matchLastMonthAt (s : List Char) : Option String :=
  match litP "last".toList s with
  | none => none
  | some r1 =>
    match wsPlus r1 with
    | none => none
    | some (_, r2) =>
      monthAlternatives.findSome? (fun name => (litP name.toList r2).map (fun _ => name))

/-- One position of the standalone month regex: an optional greedy in-prefix,
then a month alternative (the optional possessive suffix cannot fail and
does not affect the captured month). -/
def matchStandaloneMonthAt (s : List Char) : Option String :=
  (match litP "in".toList s with
   | none => none
   | some r1 =>
     match wsPlus r1 with
     | none => none
     | some (_, r2) =>
       monthAlternatives.findSome? (fun name => (litP name.toList r2).map (fun _ => name)))
  <|> monthAlternatives.findSome? (fun name => (litP name.toList s).map (fun _ => name))

/-- QueryAnalyzer._extract_sources_fast. -/
def extractSourcesFast (query : String) (r : QueryAnalysis) : QueryAnalysis :=
  let ql := query.toLower
  let sources := (sourceKeywordTable.foldl
    (fun acc p => if strHas ql p.1 then acc ++ p.2 else acc) []).dedup
  { r with sources := sources,
           confidence := if sources.isEmpty then r.confidence
                         else r.confidence + 3/10 }

/-- Characters of the local part of the email regex. -/
def isLocalChar (c : Char) : Bool :=
  c.isAlpha || c.isDigit || c = '.' || c = '_' || c = '%' || c = '+' || c = '-'

/-- Characters of the domain part of the email regex. -/
def isDomainChar (c : Char) : Bool :=
  c.isAlpha || c.isDigit || c = '.' || c = '-'

/-- Backtracking split of the domain run: the largest dot position followed
by at least two letters, as the greedy domain-plus-dot-plus-tld match finds
it.  Returns the dot index and the length of the letter run after it. -/
def bestDomainSplit (dom : List Char) : Option (Nat × Nat) :=
  (List.range dom.length).foldl
    (fun best k =>
      if 1 ≤ k && dom[k]? = some '.' then
        let alphaLen := ((dom.drop (k + 1)).takeWhile Char.isAlpha).length
        if 2 ≤ alphaLen then some (k, alphaLen) else best
      else best)
    none

/-- One position of the email regex. -/
def tryEmailAt (s : List Char) : Option (List Char × List Char) :=
  let p := s.span isLocalChar
  if p.1.isEmpty then none
  else
    match p.2 with
    | '@' :: rest2 =>
      let q := rest2.span isDomainChar
      match bestDomainSplit q.1 with
      | some (k, alphaLen) =>
        let takeLen := k + 1 + alphaLen
        some (p.1 ++ '@' :: q.1.take takeLen, q.1.drop takeLen ++ q.2)
      | none => none
    | _ => none

/-- re.findall: repeatedly search from the left, continuing after each
non-overlapping match; the fuel is an upper bound on the scan length. -/
def reFindAll (tryAt : List Char → Option (List Char × List Char)) :
    Nat → List Char → List String
  | 0, _ => []
  | _ + 1, [] => []
  | fuel + 1, c :: t =>
    match tryAt (c :: t) with
    | some (cap, rest) => String.mk cap :: reFindAll tryAt fuel rest
    | none => reFindAll tryAt fuel t

/-- re.findall over a string. -/
def pyFindAll (tryAt : List Char → Option (List Char × List Char))
    (s : String) : List String :=
  reFindAll tryAt (s.toList.length + 1) s.toList

/-- A capitalised word: one upper-case letter then one or more lower-case
letters. -/
def matchUpperWord (s : List Char) : Option (List Char × List Char) :=
  match s with
  | c :: t =>
    if c.isUpper then
      let p := t.span Char.isLower
      if p.1.isEmpty then none else some (c :: p.1, p.2)
    else none
  | [] => none

/-- The name group of the name regexes: a capitalised word, greedily
extended by whitespace and a second capitalised word when possible. -/
def matchName (s : List Char) : Option (List Char × List Char) :=
  match matchUpperWord s with
  | none => none
  | some (w1, r1) =>
    match wsPlus r1 with
    | some (ws, r2) =>
      match matchUpperWord r2 with
      | some (w2, r3) => some (w1 ++ ws ++ w2, r3)
      | none => some (w1, r1)
    | none => some (w1, r1)

/-- The keyword-whitespace-name patterns (from, to, by, with). -/
def tryPrefixNameAt (kw : List Char) (s : List Char) :
    Option (List Char × List Char) :=
  match litP kw s with
  | none => none
  | some r1 =>
    match wsPlus r1 with
    | none => none
    | some (_, r2) => matchName r2

/-- The assigned-to pattern. -/
def tryAssignedToAt (s : List Char) : Option (List Char × List Char) :=
  match litP "assigned".toList s with
  | none => none
  | some r1 =>
    match wsPlus r1 with
    | none => none
    | some (_, r2) =>
      match litP "to".toList r2 with
      | none => none
      | some r3 =>
        match wsPlus r3 with
        | none => none
        | some (_, r4) => matchName r4

/-- The assignee pattern: the literal assignee, then one or more colon or
whitespace characters, then a name. -/
def tryAssigneeAt (s : List Char) : Option (List Char × List Char) :=
  match litP "assignee".toList s with
  | none => none
  | some r1 =>
    let p := r1.span (fun c => c = ':' || pyIsSpace c)
    if p.1.isEmpty then none else matchName p.2

/-- A literal word with an optional greedy plural s. -/
def litOptS (w : List Char) (s : List Char) : Option (List Char) :=
  (litP (w ++ ['s']) s) <|> litP w s

/-- The possessive pattern: a capitalised word, an apostrophe-s, whitespace,
then one of the category words. -/
def trySaxonAt (s : List Char) : Option (List Char × List Char) :=
  match matchUpperWord s with
  | none => none
  | some (name, r1) =>
    match litP ['\x27', 's'] r1 with
    | none => none
    | some r2 =>
      match wsPlus r2 with
      | none => none
      | some (_, r3) =>
        match (litOptS "task".toList r3) <|> (litOptS "email".toList r3)
          <|> (litOptS "document".toList r3) <|> (litOptS "meeting".toList r3) with
        | some r4 => some (name, r4)
        | none => none

/-- The skip_words set of _extract_entities_fast. -/
def skipWords : List String :=
  ["the", "a", "an", "in", "on", "at", "to", "from", "by", "for", "what",
   "where", "when", "how", "which", "who", "tasks", "emails", "documents",
   "meetings", "calendar", "jira", "gmail", "show", "find", "get", "list",
   "search", "all", "my", "i", "me", "november", "december", "january",
   "february", "march", "april", "may", "june", "july", "august",
   "september", "october", "monday", "tuesday", "wednesday", "thursday",
   "friday", "saturday", "sunday"]

/-- The capitalised-token heuristic of _extract_entities_fast. -/
def capWordEntities (query : String) : List String :=
  (pySplit query).enum.filterMap (fun p =>
    if p.1 = 0 then none
    else
      match p.2.toList with
      | [] => none
      | c :: _ =>
        if c.isUpper && !(skipWords.contains p.2.toLower) then
          let clean := String.mk (p.2.toList.filter
            (fun ch => ch.isAlpha || ch.isDigit || ch = '_'))
          if 2 ≤ clean.length then some clean else none
        else none)

/-- QueryAnalyzer._extract_entities_fast: emails, the name patterns in
written order, then capitalised tokens; deduplicated as a set. -/
def extractEntitiesFast (query : String) (r : QueryAnalysis) : QueryAnalysis :=
  let emails := pyFindAll tryEmailAt query
  let patEnts :=
    (pyFindAll (tryPrefixNameAt "from".toList) query)
    ++ (pyFindAll (tryPrefixNameAt "to".toList) query)
    ++ (pyFindAll (tryPrefixNameAt "by".toList) query)
    ++ (pyFindAll tryAssignedToAt query)
    ++ (pyFindAll tryAssigneeAt query)
    ++ (pyFindAll (tryPrefixNameAt "with".toList) query)
    ++ (pyFindAll trySaxonAt query)
  let capEnts := capWordEntities query
  let entities := emails ++ patEnts ++ capEnts
  { r with entities := entities.dedup,
           confidence := if entities.isEmpty then r.confidence
                         else r.confidence + 1/5 }

/-- The relative_patterns dict of _extract_dates_fast, in insertion order. -/
def relativePatterns (now : PyDateTime) :
    List (String × (PyDateTime × PyDateTime × String)) :=
  [("today", (replaceMidnight now, now, "past")),
   ("yesterday", (replaceMidnight (addDays now (-1)), replaceMidnight now, "past")),
   ("this week", (addDays now (-(pyWeekday now)), now, "past")),
   ("last week", (addDays now (-(pyWeekday now + 7)), addDays now (-(pyWeekday now)), "past")),
   ("this month", (replaceDay1 now, now, "past")),
   ("last month", (replaceDay1 (addDays (replaceDay1 now) (-1)), replaceDay1 now, "past")),
   ("next week", (now, addDays now 7, "future")),
   ("next month", (now, addDays now 30, "future")),
   ("coming up", (now, addDays now 14, "future")),
   ("upcoming", (now, addDays now 14, "future")),
   ("tomorrow", (replaceMidnight (addDays now 1), replaceMidnight (addDays now 2), "future"))]

/-- The year the standalone-month branch of _extract_dates_fast picks for a
bare month reference. -/
def standaloneMonthYear (now : PyDateTime) (month : Nat) : Int :=
  if month ≤ now.month then now.year else now.year - 1

/-- QueryAnalyzer._extract_dates_fast. -/
def extractDatesFast (now : PyDateTime) (query : String)
    (r : QueryAnalysis) : QueryAnalysis :=
  let ql := (query.toLower).toList
  let monthYear := (searchPat matchMonthYearAt ql).bind
    (fun p => (monthNum p.1).map (fun mth => (mth, p.2)))
  match monthYear with
  | some (month, year) =>
    { r with dateFrom := some (monthStartUtc (year : Int) month),
             dateTo := some (monthEndUtc (year : Int) month),
             timeType := some "specific",
             confidence := r.confidence + 3/10 }
  | none =>
    match (searchPat matchLastMonthAt ql).bind monthNum with
    | some month =>
      let year : Int := if (month : Int) < (now.month : Int) then now.year else now.year - 1
      { r with dateFrom := some (monthStartUtc year month),
               dateTo := some (monthEndUtc year month),
               timeType := some "past",
               confidence := r.confidence + 3/10 }
    | none =>
      match (searchPat matchStandaloneMonthAt ql).bind monthNum with
      | some month =>
        let year : Int := standaloneMonthYear now month
        { r with dateFrom := some (monthStartUtc year month),
                 dateTo := some (monthEndUtc year month),
                 timeType := some "past",
                 isTemporal := true,
                 confidence := r.confidence + 3/10 }
      | none =>
        match (relativePatterns now).find? (fun p => strHas query.toLower p.1) with
        | some pat =>
          { r with dateFrom := some pat.2.1,
                   dateTo := some pat.2.2.1,
                   timeType := some pat.2.2.2,
                   confidence := r.confidence + 3/10 }
        | none => r

/-- QueryAnalyzer._detect_temporal_type. -/
def detectTemporalType (now : PyDateTime) (query : String)
    (r : QueryAnalysis) : QueryAnalysis :=
  let ql := query.toLower
  let r1 :=
    if pastTemporalKeywords.any (fun kw => strHas ql kw) then
      { r with isTemporal := true,
               timeType := if r.timeType.isNone then some "past" else r.timeType }
    else r
  if futureTemporalKeywords.any (fun kw => strHas ql kw) then
    if r1.timeType.isNone then
      { r1 with isTemporal := true,
                timeType := some "future",
                dateFrom := if r1.dateFrom.isNone then some now else r1.dateFrom,
                dateTo := if r1.dateFrom.isNone then some (addDays now 30) else r1.dateTo }
    else { r1 with isTemporal := true }
  else r1

/-- Merging one parsed LLM date field into the current value: absent leaves
it, a present value fills it only when unset, and a malformed string raises
ValueError (none) only when the parse is actually attempted, which needs the
current value to be unset. -/
def llmDateStep (v : LlmDate) (cur : Option PyDateTime) :
    Option (Option PyDateTime) :=
  match v with
  | .absent => some cur
  | .valid d => if cur.isNone then some (some d) else some cur
  | .invalid => if cur.isNone then none else some cur

/-- The datetime value an LLM date field contributes when it is filled in:
none for an absent field (invalid fields abort instead of contributing). -/
def llmDateValue : LlmDate → Option PyDateTime
  | .absent => none
  | .valid d => some d
  | .invalid => none

/-- QueryAnalyzer._analyze_with_llm: on a successful call, union entities
and sources, fill the date fields only when unset, overwrite time_type and
intent when the payload carries truthy values, and cap the bumped
confidence at 1; any raised exception leaves the mutations already applied
and skips the rest.  A failed call (API error or malformed JSON) leaves the
result untouched. -/
def analyzeWithLlm (llm : String → Option LlmOut) (query : String)
    (r : QueryAnalysis) : QueryAnalysis :=
  match llm query with
  | none => r
  | some d =>
    let r1 := if d.entities.isEmpty then r
              else { r with entities := (r.entities ++ d.entities).dedup }
    let r2 := if d.sources.isEmpty then r1
              else { r1 with sources := (r1.sources ++ d.sources).dedup }
    match llmDateStep d.dateFrom r2.dateFrom with
    | none => r2
    | some df =>
      let r3 := { r2 with dateFrom := df }
      match llmDateStep d.dateTo r3.dateTo with
      | none => r3
      | some dt =>
        let r4 := { r3 with dateTo := dt }
        let r5 := if pyStrTruthy d.timeType then { r4 with timeType := d.timeType }
                  else r4
        let r6 := if pyStrTruthy d.intent then { r5 with intent := d.intent.getD r5.intent }
                  else r5
        { r6 with confidence := min 1 (r6.confidence + 2/5) }

/-- The synchronous fast path of QueryAnalyzer.analyze. -/
def fastAnalyze (now : PyDateTime) (query : String) : QueryAnalysis :=
  detectTemporalType now query
    (extractDatesFast now query
      (extractEntitiesFast query
        (extractSourcesFast query { query := query })))

/-- QueryAnalyzer.analyze: the fast path, then the LLM slow path when the
confidence stays below 0.7. -/
def analyze (llm : String → Option LlmOut) (now : PyDateTime)
    (query : String) (useLlm : Bool) : QueryAnalysis :=
  let result := fastAnalyze now query
  if useLlm && result.confidence < 7/10 then analyzeWithLlm llm query result
  else result

/-! ## EmbeddingService -/

/-- EmbeddingService.cosine_similarity.  sqrtFn is the runtime math.sqrt
(an exact function on representable values); the code guards empty or
mismatched vectors and zero norms before dividing. -/
def cosineSimilarity (sqrtFn : ℚ → ℚ) (v1 v2 : List ℚ) : ℚ :=
  if v1 = [] ∨ v2 = [] ∨ v1.length ≠ v2.length then 0
  else
    let dotProduct := ((v1.zip v2).map (fun p => p.1 * p.2)).sum
    let norm1 := sqrtFn ((v1.map (fun a => a * a)).sum)
    let norm2 := sqrtFn ((v2.map (fun b => b * b)).sum)
    if norm1 = 0 ∨ norm2 = 0 then 0 else dotProduct / (norm1 * norm2)

/-- EmbeddingService.generate_embedding: create_embedding, falling back to
the all-zero vector of the configured dimension when the API fails. -/
def generateEmbedding (m : Model) (text : String) : List ℚ :=
  match m.embedApi text with
  | some v => v
  | none => List.replicate m.embeddingDimensions 0

/-! ## ContextService.get_episodic_memory -/

/-- Sessions ordered by updated_at DESC (the column is not nullable). -/
def sessionGe (a b : PySession) : Bool :=
  dtUtcSecs b.updatedAt ≤ dtUtcSecs a.updatedAt

/-- The synthesised title of an untitled session: the first 50 characters of
the message, newlines spaced, stripped, with an ellipsis for longer
content. -/
def episodicTitle (msg : PyMessage) : String :=
  let preview0 := ((msg.content.take 50).map
    (fun c => if c = '\n' then ' ' else c)).trim
  let preview := if 50 < msg.content.length then preview0 ++ "..." else preview0
  "Chat: " ++ preview

/-- The per-message body of the get_episodic_memory loop: skip empty
content, gate on the 0.3 similarity threshold, then score, cap at 0.5 and
build the item dict.  Chat timestamps are stored timezone-aware, so the
aware-aware subtraction from now always succeeds. -/
def episodicItemOf (m : Model) (now : PyDateTime) (queryEmbedding : List ℚ)
    (isCurrent : Bool) (s : PySession) (msg : PyMessage) : Option RItem :=
  if msg.content = "" then none
  else
    let msgEmbedding := generateEmbedding m (msg.content.take 1000)
    let similarity := cosineSimilarity m.sqrtFn queryEmbedding msgEmbedding
    if similarity < 3/10 then none
    else
      let sessionWeight : ℚ := if isCurrent then 1 else 1/2
      let daysOld : Int :=
        match msg.createdAt with
        | some c => tdDays ((pySub now c).getD 0)
        | none => 30
      let recencyScore : ℚ := max 0 (1 - (daysOld : ℚ) / 30)
      let relevance := min (1/2)
        (similarity * sessionWeight * (6/10) + recencyScore * (2/10))
      let title :=
        match s.title with
        | some t => if t = "" then episodicTitle msg else t
        | none => episodicTitle msg
      some { id := msg.id, source := "episodic", sourceId := s.id,
             contentType := "chat_message", title := some title,
             summary := some (msg.content.take 200),
             content := some msg.content,
             metaRole := some msg.role,
             metaIsCurrentSession := some isCurrent,
             sourceCreatedAt := msg.createdAt,
             relevanceScore := some (round3 relevance),
             retrievalMethod := "episodic" }

/-- The per-session body of the get_episodic_memory loop: session weight
from the current-session check, the 20 most recent messages, each mapped
through episodicItemOf. -/
def episodicSessionItems (m : Model) (now : PyDateTime)
    (queryEmbedding : List ℚ) (currentSessionId : Option String)
    (s : PySession) : List RItem :=
  let isCurrent := pyStrTruthy currentSessionId && currentSessionId = some s.id
  let msgs := (pySortDesc (sqlCreatedGe (fun msg => msg.createdAt))
    (m.messages.filter (fun msg => msg.sessionId = s.id))).take 20
  msgs.filterMap (episodicItemOf m now queryEmbedding isCurrent s)

/-- ContextService.get_episodic_memory: the 10 most recently updated
sessions, 20 most recent messages each, gated by the 0.3 similarity
threshold, session-weighted and capped at 0.5. -/
def getEpisodicMemory (m : Model) (now : PyDateTime) (userId query : String)
    (currentSessionId : Option String) (lim : Nat) : List RItem :=
  let queryEmbedding := generateEmbedding m query
  let sessions := (pySortDesc sessionGe
    (m.sessions.filter (fun s => s.userId = userId))).take 10
  let memories :=
    (sessions.map (episodicSessionItems m now queryEmbedding currentSessionId)).flatten
  (pySortDesc (qGe (fun it => it.relevanceScore.getD 0)) memories).take lim

/-! ## ContextService.retrieve_with_memory -/

/-- The return dict of retrieve_with_memory (the qa fields are the
query_analysis diagnostic sub-dict). -/
structure RwmResult where
  items : List RItem
  entities : List EntityOut
  total : Nat
  temporalCount : Option Nat := none
  metadataCount : Option Nat := none
  episodicCount : Option Nat := none
  qaEntities : List String := []
  qaSources : List String := []
  qaDateFrom : Option PyDateTime := none
  qaDateTo : Option PyDateTime := none
  qaTimeType : Option String := none
  qaIsTemporal : Bool := false
  qaConfidence : ℚ := 0
deriving DecidableEq, Repr

/-- The merge of steps 5 of retrieve_with_memory: append only items whose id
was not seen yet. -/
def dedupAppend (acc newItems : List RItem) : List RItem :=
  newItems.foldl
    (fun acc2 it => if acc2.any (fun e => e.id = it.id) then acc2 else acc2 ++ [it])
    acc

/-- ContextService.retrieve_with_memory: analyze, metadata and temporal
strategies, the base retrieve, id-checked merging of the extra strategy
results, appended episodic memories, then one final sort and truncation. -/
def retrieveWithMemory (m : Model) (now : PyDateTime) (userId query : String)
    (sessionId : Option String) (sources : Option (List String))
    (timeFilter entityFilter : Option String) (includeEpisodic : Bool)
    (lim : Nat) : RwmResult :=
  let analysis := analyze m.llm now query true
  let effectiveSources :=
    if !(pyTruthyList sources) && !analysis.sources.isEmpty then some analysis.sources
    else sources
  let dates :=
    if pyStrTruthy timeFilter then resolveTimeFilter now (timeFilter.getD "")
    else (analysis.dateFrom, analysis.dateTo)
  let metadataResults :=
    if analysis.entities.isEmpty then []
    else metadataSearch m.items userId analysis.entities effectiveSources dates.1 dates.2 lim
  let temporalResults :=
    if analysis.isTemporal && pyTruthyList effectiveSources then
      getMostRecent m.items userId effectiveSources lim
    else []
  let base := retrieve m now userId query effectiveSources none
    (pyOrStr entityFilter analysis.entities.head?) dates.1 dates.2 lim
    (some analysis.sources)
  let step5 := dedupAppend (dedupAppend base.items metadataResults) temporalResults
  let episodic :=
    if includeEpisodic then getEpisodicMemory m now userId query sessionId 3 else []
  let withEpisodic := step5 ++ episodic
  let sorted := pySortDesc (qGe (fun it => it.relevanceScore.getD 0)) withEpisodic
  let finalItems := sorted.take lim
  { items := finalItems,
    entities := base.entities,
    total := finalItems.length,
    temporalCount := if temporalResults.isEmpty then none else some temporalResults.length,
    metadataCount := if metadataResults.isEmpty then none else some metadataResults.length,
    episodicCount := if includeEpisodic then some episodic.length else none,
    qaEntities := analysis.entities,
    qaSources := analysis.sources,
    qaDateFrom := dates.1,
    qaDateTo := dates.2,
    qaTimeType := analysis.timeType,
    qaIsTemporal := analysis.isTemporal,
    qaConfidence := analysis.confidence }

/-! ## Spec-comparison definition -/

/-- Modelled from the spec: the intended recency term of the relevance
scorer, a linear decay over 365 days capped at 0.2, for an item d days
old.  Compared against recencyTermCode, which embeds what the code actually
computes. -/
def specRecencyTerm (daysOld : ℚ) : ℚ :=
  max 0 (1/5 - (daysOld / 365) * (1/5))

/-! ## Concrete instances used by witnesses and counterexamples -/

/-- A fixed timezone-aware clock value. -/
def wNow : PyDateTime := ⟨2025, 10, 12, 0, 0, 0, some 0⟩

/-- Counterexample item for the explicit-source-boost claim: identical
semantic score to cexBoostB but strong recency-independent side signals
(three metadata entity matches and a saturated full-text rank). -/
def cexBoostA : RItem :=
  { id := "a", source := "gmail", semanticScore := some (1/2),
    metaFrom := some "alice@x.com", metaAssignee := some "bob@x.com",
    metaReporter := some "carol@x.com", ftsRank := some 2 }

/-- Counterexample item for the explicit-source-boost claim: the boosted
item, with no other signals. -/
def cexBoostB : RItem :=
  { id := "b", source := "calendar", semanticScore := some (1/2) }

/-- Query entities matching the three metadata entities of cexBoostA. -/
def cexBoostQents : List QEnt :=
  [⟨"e1", "Alice", "person"⟩, ⟨"e2", "Bob", "person"⟩, ⟨"e3", "Carol", "person"⟩]

/-- Counterexample item for the score-bounds claim: the vector store can
report similarity 1 - cosine_distance = -1 for anti-parallel vectors. -/
def cexNegSemItem : RItem :=
  { id := "a", source := "misc", semanticScore := some (-1) }

/-- Witness model for the zero-vector episodic claim: the embedding API
fails, one session with one message exists. -/
def wZeroModel : Model :=
  { items := [],
    sessions := [{ id := "s1", userId := "u", title := some "Sess",
                   updatedAt := wNow }],
    messages := [{ id := "m1", sessionId := "s1", content := "hello there",
                   createdAt := some wNow }],
    embedApi := fun _ => none,
    sqrtFn := fun _ => 0 }

/-- Episodic model with one session and one message one day older than
wNow: similarity 1 with weight 0.5 and recency 29/30 gives the relevance
0.3 + 29/150 = 37/75, whose 3-decimal rounding 0.493 differs from the exact
formula value. -/
def cexEpiModel : Model :=
  { items := [],
    sessions := [{ id := "s1", userId := "u", title := some "Sess",
                   updatedAt := wNow }],
    messages := [{ id := "m1", sessionId := "s1", content := "hi",
                   createdAt := some ⟨2025, 10, 11, 0, 0, 0, some 0⟩ }],
    embedApi := fun _ => some [1],
    sqrtFn := id }

/-- Episodic model with one message dated exactly wNow: relevance hits the
0.5 cap. -/
def wEpiModel : Model :=
  { items := [],
    sessions := [{ id := "s1", userId := "u", title := some "Sess",
                   updatedAt := wNow }],
    messages := [{ id := "m1", sessionId := "s1", content := "hi",
                   createdAt := some wNow }],
    embedApi := fun _ => some [1],
    sqrtFn := id }

/-- The single item wEpiModel's episodic retrieval produces. -/
def wEpiItem : RItem :=
  { id := "m1", source := "episodic", sourceId := "s1",
    contentType := "chat_message", title := some "Sess", summary := some "hi",
    content := some "hi", metaRole := some "user",
    metaIsCurrentSession := some false, sourceCreatedAt := some wNow,
    relevanceScore := some (1/2), retrievalMethod := "episodic" }

/-- A well-formed LLM payload used to exercise the slow-path merge. -/
def wLlmOut : LlmOut :=
  { entities := ["Ann"], sources := ["jira"], dateFrom := .valid wNow,
    dateTo := .absent, timeType := some "specific", intent := some "create" }

/-- A knowledge item outside the ticket source, matched by the keyword
hello. -/
def wC6KItem : KItem :=
  { id := "k1", userId := "u", sourceType := "gmail",
    title := some "Hello world", content := some "hello content",
    sourceCreatedAt := some wNow }

/-- Model for the source-filter fallback witness: the only matching item is
not a ticket, the vector and full-text oracles return nothing. -/
def wC6Model : Model := { items := [wC6KItem] }

/-- Witness item for the temporal-balance claim: a gmail item of user u. -/
def wTbA : KItem :=
  { id := "t1", userId := "u", sourceType := "gmail",
    sourceCreatedAt := some wNow }

/-- Witness item for the temporal-balance claim: a jira item of user u. -/
def wTbB : KItem :=
  { id := "t2", userId := "u", sourceType := "jira",
    sourceCreatedAt := some ⟨2025, 10, 11, 0, 0, 0, some 0⟩ }

/-- Witness model for the dedup claim: two knowledge items, one chat session
with one message whose id differs from both item ids, and a working
embedding API. -/
def wRwmModel : Model :=
  { items := [{ id := "k1", userId := "u", sourceType := "gmail",
                title := some "Hello", content := some "hello content",
                sourceCreatedAt := some wNow },
              { id := "k2", userId := "u", sourceType := "jira",
                title := some "Ticket", content := some "hello ticket" }],
    sessions := [{ id := "s1", userId := "u", updatedAt := wNow }],
    messages := [{ id := "m1", sessionId := "s1", content := "hello there",
                   createdAt := some wNow }],
    embedApi := fun _ => some [1] }

/-! ## Supporting lemmas -/

theorem insertGeB_perm {α : Type} (ge : α → α → Bool) (x : α) (l : List α) :
    (insertGeB ge x l).Perm (x :: l) := by
  induction l with
  | nil => simp [insertGeB]
  | cons y ys ih =>
    simp only [insertGeB]
    by_cases h : ge y x = true
    · simp only [h, if_true]
      exact ((ih.cons y).trans (List.Perm.swap x y ys))
    · simp [h]

theorem pySortDesc_perm {α : Type} (ge : α → α → Bool) (l : List α) :
    (pySortDesc ge l).Perm l := by
  suffices h : ∀ acc : List α,
      (l.foldl (fun acc x => insertGeB ge x acc) acc).Perm (acc ++ l) by
    simpa using h []
  induction l with
  | nil => intro acc; simp
  | cons x xs ih =>
    intro acc
    simp only [List.foldl_cons]
    refine (ih (insertGeB ge x acc)).trans ?_
    refine (List.Perm.append_right xs ((insertGeB_perm ge x acc))).trans ?_
    simpa using (@List.perm_middle α x acc xs).symm

theorem mem_pySortDesc {α : Type} (ge : α → α → Bool) (l : List α) (x : α) :
    x ∈ pySortDesc ge l ↔ x ∈ l :=
  (pySortDesc_perm ge l).mem_iff

theorem pyRoundInt_nonneg (q : ℚ) (h : 0 ≤ q) : 0 ≤ pyRoundInt q := by
  have hf : (0 : ℤ) ≤ ⌊q⌋ := Int.floor_nonneg.mpr h
  simp only [pyRoundInt]
  split_ifs <;> omega

theorem round3_nonneg (q : ℚ) (h : 0 ≤ q) : 0 ≤ round3 q := by
  have : (0 : ℤ) ≤ pyRoundInt (q * 1000) := by
    apply pyRoundInt_nonneg; positivity
  rw [round3]
  positivity

theorem pyRoundInt_add_even (q : ℚ) (n : ℤ) (hn : n % 2 = 0) :
    pyRoundInt (q + n) = pyRoundInt q + n := by
  simp only [pyRoundInt, Int.floor_add_int]
  have h1 : q + (n : ℚ) - ((⌊q⌋ + n : ℤ) : ℚ) = q - ⌊q⌋ := by push_cast; ring
  rw [h1]
  split_ifs <;> omega

theorem pyRoundInt_le_int (q : ℚ) (n : ℤ) (h : q ≤ n) : pyRoundInt q ≤ n := by
  have hf : ⌊q⌋ ≤ n := by
    have := Int.floor_le_floor h
    simpa using this
  simp only [pyRoundInt]
  split_ifs with h1 h2 h3
  · exact hf
  · have hlt : (⌊q⌋ : ℚ) < n := by
      have hq : (⌊q⌋ : ℚ) ≤ q - 1/2 := by linarith
      have : (⌊q⌋ : ℚ) ≤ (n : ℚ) - 1/2 := by linarith
      linarith
    have : ⌊q⌋ < n := by exact_mod_cast hlt
    omega
  · exact hf
  · have hle : (1 : ℚ)/2 ≤ q - ⌊q⌋ := by linarith
    have hlt : (⌊q⌋ : ℚ) < n := by linarith
    have : ⌊q⌋ < n := by exact_mod_cast hlt
    omega

theorem round3_le_half (q : ℚ) (h : q ≤ 1/2) : round3 q ≤ 1/2 := by
  have hle : q * 1000 ≤ ((500 : ℤ) : ℚ) := by push_cast; linarith
  have := pyRoundInt_le_int (q * 1000) 500 hle
  rw [round3]
  have hc : ((pyRoundInt (q * 1000) : ℚ)) ≤ 500 := by exact_mod_cast this
  linarith

theorem round3_add_twoFifths (q : ℚ) : round3 (q + 2/5) = round3 q + 2/5 := by
  have h1 : (q + 2/5) * 1000 = q * 1000 + ((400 : ℤ) : ℚ) := by push_cast; ring
  rw [round3, round3, h1, pyRoundInt_add_even (q * 1000) 400 (by norm_num)]
  push_cast
  ring

theorem recencyTermCode_nonneg (now : PyDateTime) (c : Option PyDateTime) :
    0 ≤ recencyTermCode now c := by
  unfold recencyTermCode
  cases c with
  | none => norm_num
  | some created =>
    rcases hps : pySub now (stripTz created) with _ | secs <;> simp only [hps]
    · norm_num
    · exact le_max_left (0 : ℚ) _

theorem entityTerm_nonneg (qn : List String) (item : RItem) :
    0 ≤ entityTerm qn item := by
  unfold entityTerm
  have hbase : (0 : ℚ) ≤ min (3/10)
      ((((extractItemEntities item).filter (fun n => qn.contains n)).length : ℚ) * (1/10)) := by
    apply le_min (by norm_num)
    positivity
  split_ifs
  · exact le_trans hbase (le_max_left _ _)
  · exact hbase

theorem sourcePriorityOf_ge (s : String) : 1/20 ≤ sourcePriorityOf s := by
  unfold sourcePriorityOf
  split_ifs <;> norm_num

theorem ftsTerm_nonneg (item : RItem) (h : 0 ≤ item.ftsRank.getD 0) :
    0 ≤ ftsTerm item := by
  unfold ftsTerm
  apply le_min (by norm_num)
  positivity

theorem boostTerm_nonneg (es : Option (List String)) (s : String) :
    0 ≤ boostTerm es s := by
  unfold boostTerm
  rcases es with _ | l
  · norm_num
  · dsimp only
    split_ifs <;> norm_num

/-- Claim C3 (code bug): the spec says a dated item d days old contributes
max(0, 0.2 - (d/365) * 0.2) to the relevance score, but _calculate_relevance
subtracts the tz-stripped parse of the timestamp from the timezone-aware
now, which raises TypeError for every dated item; the silently caught
exception leaves the recency term at exactly 0 for all items.  The second
and third conjuncts evaluate the spec formula at 0 and 100 days old,
showing the intended contribution is not 0. -/
theorem recency_term_dead :
    (∀ now created : PyDateTime, now.tz = some 0 →
      recencyTermCode now (some created) = 0) ∧
    specRecencyTerm 0 = 1/5 ∧ specRecencyTerm 100 = 53/365 := by
  refine ⟨?_, ?_, ?_⟩
  · intro now created h
    unfold recencyTermCode pySub stripTz
    rw [h]
  · rw [specRecencyTerm]
    norm_num
  · rw [specRecencyTerm]
    rw [max_eq_right (by norm_num)]
    norm_num

theorem recency_term_dead_witness :
    recencyTermCode wNow (some ⟨2025, 10, 11, 0, 0, 0, some 0⟩) = 0 :=
  recency_term_dead.1 wNow ⟨2025, 10, 11, 0, 0, 0, some 0⟩ rfl

/-- Claim C9 (corrected): the final relevance score is nonnegative provided
the semantic-score signal of each item is at least -0.1 (all nonnegative
similarities in particular) and the full-text rank is nonnegative; the
counterexample theorem shows a vector-search similarity of -1 drives the
rounded score to -0.45. -/
theorem score_nonneg_amended (now : PyDateTime) (items : List RItem)
    (qents : List QEnt) (qd : Option PyDateTime) (expl : Option (List String))
    (it : RItem)
    (hsig : ∀ x ∈ items, -1/10 ≤ x.semanticScore.getD (1/2) ∧ 0 ≤ x.ftsRank.getD 0)
    (hmem : it ∈ calcRelevance now items qents qd expl) :
    0 ≤ it.relevanceScore.getD 0 := by
  unfold calcRelevance at hmem
  simp only [List.mem_map] at hmem
  obtain ⟨it0, hit0, rfl⟩ := hmem
  simp only [Option.getD_some]
  apply round3_nonneg
  obtain ⟨hsem, hfts⟩ := hsig it0 hit0
  unfold calcItemScore
  have h1 := recencyTermCode_nonneg now it0.sourceCreatedAt
  have h2 := entityTerm_nonneg (qents.map (fun e => e.name.toLower)) it0
  have h3 := sourcePriorityOf_ge it0.source.toLower
  have h4 := ftsTerm_nonneg it0 hfts
  have h5 := boostTerm_nonneg expl it0.source.toLower
  have h6 : -(1/20 : ℚ) ≤ it0.semanticScore.getD (1/2) * (1/2) := by linarith
  linarith

theorem score_nonneg_amended_witness :
    0 ≤ (RItem.relevanceScore
      { id := "a", source := "x", relevanceScore := some (3/10) }).getD 0 :=
  score_nonneg_amended wNow [{ id := "a", source := "x" }] [] none none
    _ (by with_unfolding_all decide) (by with_unfolding_all decide)

/-- Claim C9 counterexample: an item whose only signal is the vector-search
similarity -1 (anti-parallel embeddings) receives the rounded final score
-0.45 < 0, refuting nonnegativity over all possible signal values. -/
theorem score_negative_cex :
    ((calcRelevance wNow [cexNegSemItem] [] none none).map
      (fun it => it.relevanceScore)) = [some (-(9/20))] ∧ (-(9/20) : ℚ) < 0 := by
  refine ⟨by with_unfolding_all decide, by norm_num⟩

/-- Claim C2 (corrected): among items scored in the same call with identical
semantic scores AND identical recency, entity, source-priority and
full-text terms, the item whose source is among the explicitly detected
sources receives the 0.4 boost and its final rounded relevance score is
strictly higher, exceeding the other by exactly 0.4.  (The counterexample
theorem shows the claim is false without equating the other terms.) -/
theorem explicit_boost_amended (now : PyDateTime) (qents : List QEnt)
    (qd : Option PyDateTime) (es : List String) (a b : RItem)
    (hsem : a.semanticScore = b.semanticScore)
    (hrec : recencyTermCode now a.sourceCreatedAt = recencyTermCode now b.sourceCreatedAt)
    (hent : entityTerm (qents.map (fun e => e.name.toLower)) a
          = entityTerm (qents.map (fun e => e.name.toLower)) b)
    (hsrc : sourcePriorityOf a.source.toLower = sourcePriorityOf b.source.toLower)
    (hfts : ftsTerm a = ftsTerm b)
    (hb : es.contains b.source.toLower = true)
    (ha : es.contains a.source.toLower = false) :
    boostTerm (some es) b.source.toLower = 2/5 ∧
    (calcRelevance now [a, b] qents qd (some es)).map (fun it => it.relevanceScore)
      = [some (round3 (calcItemScore now (qents.map (fun e => e.name.toLower)) (some es) a)),
         some (round3 (calcItemScore now (qents.map (fun e => e.name.toLower)) (some es) b))] ∧
    round3 (calcItemScore now (qents.map (fun e => e.name.toLower)) (some es) b)
      = round3 (calcItemScore now (qents.map (fun e => e.name.toLower)) (some es) a) + 2/5 ∧
    round3 (calcItemScore now (qents.map (fun e => e.name.toLower)) (some es) a)
      < round3 (calcItemScore now (qents.map (fun e => e.name.toLower)) (some es) b) := by
  have hboostb : boostTerm (some es) b.source.toLower = 2/5 := by
    unfold boostTerm
    dsimp only
    simp only [hb, if_true]
  have hboosta : boostTerm (some es) a.source.toLower = 0 := by
    unfold boostTerm
    dsimp only
    simp only [ha, Bool.false_eq_true, if_false]
  have hscore : calcItemScore now (qents.map (fun e => e.name.toLower)) (some es) b
      = calcItemScore now (qents.map (fun e => e.name.toLower)) (some es) a + 2/5 := by
    simp only [calcItemScore]
    rw [hsem, hrec, hent, hsrc, hfts, hboostb, hboosta]
    ring
  refine ⟨hboostb, by simp [calcRelevance], ?_, ?_⟩
  · rw [hscore, round3_add_twoFifths]
  · rw [hscore, round3_add_twoFifths]
    linarith

theorem explicit_boost_amended_witness :
    boostTerm (some ["calendar"]) (RItem.source cexBoostB).toLower = 2/5 ∧
    (calcRelevance wNow [{ id := "a", source := "misc", semanticScore := some (1/2) },
        cexBoostB] [] none (some ["calendar"])).map (fun it => it.relevanceScore)
      = [some (round3 (calcItemScore wNow [] (some ["calendar"])
          { id := "a", source := "misc", semanticScore := some (1/2) })),
         some (round3 (calcItemScore wNow [] (some ["calendar"]) cexBoostB))] ∧
    round3 (calcItemScore wNow [] (some ["calendar"]) cexBoostB)
      = round3 (calcItemScore wNow [] (some ["calendar"])
          { id := "a", source := "misc", semanticScore := some (1/2) }) + 2/5 ∧
    round3 (calcItemScore wNow [] (some ["calendar"])
        { id := "a", source := "misc", semanticScore := some (1/2) })
      < round3 (calcItemScore wNow [] (some ["calendar"]) cexBoostB) := by
  have h := explicit_boost_amended wNow [] none ["calendar"]
    { id := "a", source := "misc", semanticScore := some (1/2) } cexBoostB
    (by with_unfolding_all decide) (by with_unfolding_all decide)
    (by with_unfolding_all decide) (by with_unfolding_all decide)
    (by with_unfolding_all decide) (by with_unfolding_all decide)
    (by with_unfolding_all decide)
  simpa using h

/-- Claim C2 counterexample: two items with identical semantic scores where
only the second is from an explicitly detected source; the non-boosted item
scores 0.75 while the boosted item scores 0.70, so the boosted item does
not rank strictly higher when the other signal terms are free. -/
theorem explicit_boost_cex :
    cexBoostA.semanticScore = cexBoostB.semanticScore ∧
    (["calendar"].contains (RItem.source cexBoostB).toLower) = true ∧
    (["calendar"].contains (RItem.source cexBoostA).toLower) = false ∧
    ((calcRelevance wNow [cexBoostA, cexBoostB] cexBoostQents none
      (some ["calendar"])).map (fun it => it.relevanceScore))
      = [some (3/4), some (7/10)] ∧
    (7/10 : ℚ) < 3/4 := by
  refine ⟨by with_unfolding_all decide, by with_unfolding_all decide,
    by with_unfolding_all decide, by with_unfolding_all decide, by norm_num⟩

theorem zeroVec_sumsq (n : Nat) :
    (((List.replicate n (0 : ℚ)).map (fun a => a * a)).sum) = 0 := by
  induction n with
  | zero => simp
  | succ k ih => simp [List.replicate_succ, ih]

theorem cosine_zero_of_norm1 (f : ℚ → ℚ) (v1 v2 : List ℚ)
    (h : f ((v1.map (fun a => a * a)).sum) = 0) :
    cosineSimilarity f v1 v2 = 0 := by
  unfold cosineSimilarity
  dsimp only
  split_ifs with h1 h2
  · rfl
  · rfl
  · exact absurd (Or.inl h) h2

theorem cosine_zero_of_norm2 (f : ℚ → ℚ) (v1 v2 : List ℚ)
    (h : f ((v2.map (fun b => b * b)).sum) = 0) :
    cosineSimilarity f v1 v2 = 0 := by
  unfold cosineSimilarity
  dsimp only
  split_ifs with h1 h2
  · rfl
  · rfl
  · exact absurd (Or.inr h) h2

theorem flatten_eq_nil_of_all_nil {α : Type} (L : List (List α))
    (h : ∀ l ∈ L, l = []) : L.flatten = [] := by
  induction L with
  | nil => rfl
  | cons x xs ih =>
    rw [List.flatten_cons, h x (by simp), List.nil_append]
    exact ih (fun l hl => h l (by simp [hl]))

theorem episodicItemOf_none_of_simzero (m : Model) (now : PyDateTime)
    (qe : List ℚ) (isCur : Bool) (s : PySession) (msg : PyMessage)
    (hsim : ∀ v2 : List ℚ, cosineSimilarity m.sqrtFn qe v2 = 0) :
    episodicItemOf m now qe isCur s msg = none := by
  unfold episodicItemOf
  by_cases hc : msg.content = ""
  · simp [hc]
  · simp only [hc, if_false]
    rw [hsim (generateEmbedding m (msg.content.take 1000))]
    norm_num

/-- Claim C10 (confirmed): cosine_similarity is total and division-guarded
(empty operands, length mismatches and zero norms all return 0), and when
the embedding API fails, generate_embedding falls back to the all-zero
vector, every message similarity is 0 (below the 0.3 threshold) and
get_episodic_memory returns the empty list.  The sqrtFn hypothesis states
the one fact used about math.sqrt: sqrt(0.0) = 0.0. -/
theorem cosine_guard_total :
    (∀ (f : ℚ → ℚ) (v2 : List ℚ), cosineSimilarity f [] v2 = 0) ∧
    (∀ (f : ℚ → ℚ) (v1 : List ℚ), cosineSimilarity f v1 [] = 0) ∧
    (∀ (f : ℚ → ℚ) (v1 v2 : List ℚ), v1.length ≠ v2.length →
      cosineSimilarity f v1 v2 = 0) ∧
    (∀ (f : ℚ → ℚ) (v1 v2 : List ℚ),
      f ((v1.map (fun a => a * a)).sum) = 0 → cosineSimilarity f v1 v2 = 0) ∧
    (∀ (f : ℚ → ℚ) (v1 v2 : List ℚ),
      f ((v2.map (fun b => b * b)).sum) = 0 → cosineSimilarity f v1 v2 = 0) ∧
    (∀ (m : Model) (now : PyDateTime) (userId query : String)
      (csid : Option String) (lim : Nat),
      m.embedApi query = none → m.sqrtFn 0 = 0 →
      (∀ v2 : List ℚ, cosineSimilarity m.sqrtFn (generateEmbedding m query) v2 = 0) ∧
      getEpisodicMemory m now userId query csid lim = []) := by
  refine ⟨?_, ?_, ?_, cosine_zero_of_norm1, cosine_zero_of_norm2, ?_⟩
  · intro f v2
    unfold cosineSimilarity
    simp
  · intro f v1
    unfold cosineSimilarity
    rw [if_pos (Or.inr (Or.inl rfl))]
  · intro f v1 v2 h
    unfold cosineSimilarity
    rw [if_pos (Or.inr (Or.inr h))]
  · intro m now userId query csid lim hapi hsqrt
    have hqe : generateEmbedding m query = List.replicate m.embeddingDimensions 0 := by
      unfold generateEmbedding
      rw [hapi]
    have hsim : ∀ v2 : List ℚ,
        cosineSimilarity m.sqrtFn (generateEmbedding m query) v2 = 0 := by
      intro v2
      rw [hqe]
      apply cosine_zero_of_norm1
      rw [zeroVec_sumsq]
      exact hsqrt
    refine ⟨hsim, ?_⟩
    simp only [getEpisodicMemory]
    have hmem : ((pySortDesc sessionGe
        (m.sessions.filter (fun s => s.userId = userId))).take 10).map
          (episodicSessionItems m now (generateEmbedding m query) csid)
        = List.replicate ((pySortDesc sessionGe
            (m.sessions.filter (fun s => s.userId = userId))).take 10).length [] := by
      rw [List.eq_replicate_iff]
      refine ⟨by simp, ?_⟩
      intro l hl
      rw [List.mem_map] at hl
      obtain ⟨s, _, rfl⟩ := hl
      unfold episodicSessionItems
      apply List.filterMap_eq_nil_iff.mpr
      intro msg _
      exact episodicItemOf_none_of_simzero m now (generateEmbedding m query) _ s msg hsim
    rw [hmem]
    have : (List.replicate ((pySortDesc sessionGe
        (m.sessions.filter (fun s => s.userId = userId))).take 10).length
          ([] : List RItem)).flatten = [] := by
      apply flatten_eq_nil_of_all_nil
      intro l hl
      exact List.eq_of_mem_replicate hl
    rw [this]
    simp [pySortDesc]

theorem cosine_guard_total_witness :
    cosineSimilarity wZeroModel.sqrtFn (generateEmbedding wZeroModel "q") [1] = 0 ∧
    getEpisodicMemory wZeroModel wNow "u" "q" none 5 = [] :=
  ⟨(cosine_guard_total.2.2.2.2.2 wZeroModel wNow "u" "q" none 5 rfl rfl).1 [1],
   (cosine_guard_total.2.2.2.2.2 wZeroModel wNow "u" "q" none 5 rfl rfl).2⟩

/-- Claim C7 (corrected): every item returned by get_episodic_memory comes
from a stored message whose query similarity passed the 0.3 threshold, and
its stored relevance score is min(0.5, similarity * sessionWeight * 0.6 +
recencyScore * 0.2) rounded to 3 decimals, hence never above 0.5.  (The
counterexample theorem shows the stored score differs from the unrounded
formula value the claim states.) -/
theorem episodic_gating_amended (m : Model) (now : PyDateTime)
    (userId query : String) (csid : Option String) (lim : Nat) (it : RItem)
    (hmem : it ∈ getEpisodicMemory m now userId query csid lim) :
    ∃ (s : PySession) (msg : PyMessage) (w rec sim : ℚ) (dOld : Int),
      s ∈ m.sessions ∧ msg ∈ m.messages ∧ msg.sessionId = s.id ∧
      sim = cosineSimilarity m.sqrtFn (generateEmbedding m query)
        (generateEmbedding m (msg.content.take 1000)) ∧
      w = (if pyStrTruthy csid && csid = some s.id then (1 : ℚ) else 1/2) ∧
      dOld = (match msg.createdAt with
        | some c => tdDays ((pySub now c).getD 0)
        | none => 30) ∧
      rec = max (0 : ℚ) (1 - (dOld : ℚ) / 30) ∧
      3/10 ≤ sim ∧
      it.relevanceScore = some (round3 (min (1/2) (sim * w * (6/10) + rec * (2/10)))) ∧
      it.relevanceScore.getD 0 ≤ 1/2 := by
  simp only [getEpisodicMemory] at hmem
  have hmem2 := List.take_subset _ _ hmem
  rw [mem_pySortDesc] at hmem2
  rw [List.mem_flatten] at hmem2
  obtain ⟨l, hl, hit⟩ := hmem2
  rw [List.mem_map] at hl
  obtain ⟨s, hs, rfl⟩ := hl
  have hsmem : s ∈ m.sessions := by
    have h1 := List.take_subset _ _ hs
    rw [mem_pySortDesc] at h1
    exact (List.mem_filter.mp h1).1
  simp only [episodicSessionItems] at hit
  rw [List.mem_filterMap] at hit
  obtain ⟨msg, hmsg, hsome⟩ := hit
  have hmmem : msg ∈ m.messages ∧ msg.sessionId = s.id := by
    have h1 := List.take_subset _ _ hmsg
    rw [mem_pySortDesc] at h1
    have h2 := List.mem_filter.mp h1
    exact ⟨h2.1, by simpa using h2.2⟩
  unfold episodicItemOf at hsome
  by_cases hc : msg.content = ""
  · simp [hc] at hsome
  · simp only [hc, if_false] at hsome
    by_cases hlt : cosineSimilarity m.sqrtFn (generateEmbedding m query)
        (generateEmbedding m (msg.content.take 1000)) < 3/10
    · simp [hlt] at hsome
    · simp only [hlt, if_false] at hsome
      obtain rfl := Option.some.inj hsome
      refine ⟨s, msg, _, _, _, _, hsmem, hmmem.1, hmmem.2, rfl, rfl, rfl, rfl,
        not_lt.mp hlt, ?_, ?_⟩
      · rfl
      · simpa using round3_le_half _ (min_le_left _ _)

set_option maxRecDepth 100000 in
theorem episodic_gating_amended_witness :
    ∃ (s : PySession) (msg : PyMessage) (w rec sim : ℚ) (dOld : Int),
      s ∈ wEpiModel.sessions ∧ msg ∈ wEpiModel.messages ∧ msg.sessionId = s.id ∧
      sim = cosineSimilarity wEpiModel.sqrtFn (generateEmbedding wEpiModel "q")
        (generateEmbedding wEpiModel (msg.content.take 1000)) ∧
      w = (if pyStrTruthy none && (none : Option String) = some s.id then (1 : ℚ) else 1/2) ∧
      dOld = (match msg.createdAt with
        | some c => tdDays ((pySub wNow c).getD 0)
        | none => 30) ∧
      rec = max (0 : ℚ) (1 - (dOld : ℚ) / 30) ∧
      3/10 ≤ sim ∧
      wEpiItem.relevanceScore = some (round3 (min (1/2) (sim * w * (6/10) + rec * (2/10)))) ∧
      wEpiItem.relevanceScore.getD 0 ≤ 1/2 :=
  episodic_gating_amended wEpiModel wNow "u" "q" none 5 wEpiItem
    (by with_unfolding_all decide)

set_option maxRecDepth 100000 in
/-- Claim C7 counterexample: with similarity 1, session weight 0.5 and
recency 29/30 the formula value is 37/75 = 0.493333..., but the stored
relevance score is the 3-decimal rounding 0.493, so the stored score does
not equal the claimed formula value. -/
theorem episodic_round_cex :
    ((getEpisodicMemory cexEpiModel wNow "u" "q" none 5).map
      (fun it => it.relevanceScore)) = [some (493/1000)] ∧
    min (1/2) ((1 : ℚ) * (1/2) * (6/10) + (29/30) * (2/10)) = 37/75 ∧
    (493/1000 : ℚ) ≠ 37/75 := by
  refine ⟨by with_unfolding_all decide, by norm_num, by norm_num⟩

theorem dedup_toFinset (l : List String) : l.dedup.toFinset = l.toFinset := by
  ext a
  simp [List.mem_dedup]

set_option maxHeartbeats 3200000 in
/-- Claim C8 (corrected): when the slow path runs (fast-path confidence
below 0.7) and the LLM payload parses, entities and sources are unioned
with the fast-path results and date_from and date_to are filled only when
still unset; however, time_type and intent are OVERWRITTEN whenever the
payload carries truthy values, rather than filled only when unset, and a
failed LLM call leaves the fast-path result returned as-is.  The payload
date fields are assumed well-formed (a malformed date string would abort
the remaining merge steps part-way). -/
theorem llm_merge_amended (llm : String → Option LlmOut) (now : PyDateTime)
    (query : String) (d : LlmOut)
    (hconf : (fastAnalyze now query).confidence < 7/10)
    (hllm : llm query = some d)
    (hdf : d.dateFrom ≠ LlmDate.invalid)
    (hdt : d.dateTo ≠ LlmDate.invalid) :
    ((analyze llm now query true).entities.toFinset
        = (fastAnalyze now query).entities.toFinset ∪ d.entities.toFinset) ∧
    ((analyze llm now query true).sources.toFinset
        = (fastAnalyze now query).sources.toFinset ∪ d.sources.toFinset) ∧
    ((analyze llm now query true).dateFrom
        = if (fastAnalyze now query).dateFrom.isSome then (fastAnalyze now query).dateFrom
          else llmDateValue d.dateFrom) ∧
    ((analyze llm now query true).dateTo
        = if (fastAnalyze now query).dateTo.isSome then (fastAnalyze now query).dateTo
          else llmDateValue d.dateTo) ∧
    ((analyze llm now query true).timeType
        = if pyStrTruthy d.timeType then d.timeType
          else (fastAnalyze now query).timeType) ∧
    ((analyze llm now query true).intent
        = if pyStrTruthy d.intent then d.intent.getD (fastAnalyze now query).intent
          else (fastAnalyze now query).intent) ∧
    ((analyze llm now query true).confidence
        = min 1 ((fastAnalyze now query).confidence + 2/5)) ∧
    (∀ llm2 : String → Option LlmOut, llm2 query = none →
      analyze llm2 now query true = fastAnalyze now query) := by
  have hFail : ∀ llm2 : String → Option LlmOut, llm2 query = none →
      analyze llm2 now query true = fastAnalyze now query := by
    intro llm2 h2
    unfold analyze
    rw [if_pos (by simp [hconf])]
    unfold analyzeWithLlm
    rw [h2]
  have hA : analyze llm now query true = analyzeWithLlm llm query (fastAnalyze now query) := by
    unfold analyze
    rw [if_pos (by simp [hconf])]
  rw [hA]
  unfold analyzeWithLlm
  rw [hllm]
  have hunion : ∀ l1 l2 : List String,
      ((l1 ++ l2).dedup).toFinset = l1.toFinset ∪ l2.toFinset := by
    intro l1 l2
    rw [dedup_toFinset, List.toFinset_append]
  set fast := fastAnalyze now query with hfastEq
  clear_value fast
  clear hfastEq
  rcases hdF : d.dateFrom with _ | dfv | _
  rotate_right
  · exact absurd hdF hdf
  · rcases hdT : d.dateTo with _ | dtv | _
    rotate_right
    · exact absurd hdT hdt
    · cases hdfo : fast.dateFrom <;>
      cases hdto : fast.dateTo <;>
      by_cases he : d.entities = [] <;>
      by_cases hs : d.sources = [] <;>
      by_cases htt : pyStrTruthy d.timeType <;>
      by_cases hit : pyStrTruthy d.intent <;>
      refine ⟨?_, ?_, ?_, ?_, ?_, ?_, ?_, hFail⟩ <;>
      simp [llmDateStep, llmDateValue, hunion, List.isEmpty_iff, he, hs, hdfo,
        hdto, hdF, hdT, htt, hit]
    · cases hdfo : fast.dateFrom <;>
      cases hdto : fast.dateTo <;>
      by_cases he : d.entities = [] <;>
      by_cases hs : d.sources = [] <;>
      by_cases htt : pyStrTruthy d.timeType <;>
      by_cases hit : pyStrTruthy d.intent <;>
      refine ⟨?_, ?_, ?_, ?_, ?_, ?_, ?_, hFail⟩ <;>
      simp [llmDateStep, llmDateValue, hunion, List.isEmpty_iff, he, hs, hdfo,
        hdto, hdF, hdT, htt, hit]
  · rcases hdT : d.dateTo with _ | dtv | _
    rotate_right
    · exact absurd hdT hdt
    · cases hdfo : fast.dateFrom <;>
      cases hdto : fast.dateTo <;>
      by_cases he : d.entities = [] <;>
      by_cases hs : d.sources = [] <;>
      by_cases htt : pyStrTruthy d.timeType <;>
      by_cases hit : pyStrTruthy d.intent <;>
      refine ⟨?_, ?_, ?_, ?_, ?_, ?_, ?_, hFail⟩ <;>
      simp [llmDateStep, llmDateValue, hunion, List.isEmpty_iff, he, hs, hdfo,
        hdto, hdF, hdT, htt, hit]
    · cases hdfo : fast.dateFrom <;>
      cases hdto : fast.dateTo <;>
      by_cases he : d.entities = [] <;>
      by_cases hs : d.sources = [] <;>
      by_cases htt : pyStrTruthy d.timeType <;>
      by_cases hit : pyStrTruthy d.intent <;>
      refine ⟨?_, ?_, ?_, ?_, ?_, ?_, ?_, hFail⟩ <;>
      simp [llmDateStep, llmDateValue, hunion, List.isEmpty_iff, he, hs, hdfo,
        hdto, hdF, hdT, htt, hit]

theorem llm_merge_amended_witness :
    ((analyze (fun _ => some wLlmOut) wNow "latest stuff" true).entities.toFinset
        = (fastAnalyze wNow "latest stuff").entities.toFinset ∪ wLlmOut.entities.toFinset) ∧
    ((analyze (fun _ => some wLlmOut) wNow "latest stuff" true).sources.toFinset
        = (fastAnalyze wNow "latest stuff").sources.toFinset ∪ wLlmOut.sources.toFinset) ∧
    ((analyze (fun _ => some wLlmOut) wNow "latest stuff" true).dateFrom
        = if (fastAnalyze wNow "latest stuff").dateFrom.isSome
          then (fastAnalyze wNow "latest stuff").dateFrom
          else llmDateValue wLlmOut.dateFrom) ∧
    ((analyze (fun _ => some wLlmOut) wNow "latest stuff" true).dateTo
        = if (fastAnalyze wNow "latest stuff").dateTo.isSome
          then (fastAnalyze wNow "latest stuff").dateTo
          else llmDateValue wLlmOut.dateTo) ∧
    ((analyze (fun _ => some wLlmOut) wNow "latest stuff" true).timeType
        = if pyStrTruthy wLlmOut.timeType then wLlmOut.timeType
          else (fastAnalyze wNow "latest stuff").timeType) ∧
    ((analyze (fun _ => some wLlmOut) wNow "latest stuff" true).intent
        = if pyStrTruthy wLlmOut.intent
          then wLlmOut.intent.getD (fastAnalyze wNow "latest stuff").intent
          else (fastAnalyze wNow "latest stuff").intent) ∧
    ((analyze (fun _ => some wLlmOut) wNow "latest stuff" true).confidence
        = min 1 ((fastAnalyze wNow "latest stuff").confidence + 2/5)) := by
  have h := llm_merge_amended (fun _ => some wLlmOut) wNow "latest stuff" wLlmOut
    (by with_unfolding_all decide) rfl (by with_unfolding_all decide)
    (by with_unfolding_all decide)
  exact ⟨h.1, h.2.1, h.2.2.1, h.2.2.2.1, h.2.2.2.2.1, h.2.2.2.2.2.1,
    h.2.2.2.2.2.2.1⟩

/-- Claim C8 counterexample: the fast path of the query detects time_type
past; the claim says the LLM merge fills time_type only if still unset, but
the code overwrites it with the LLM value specific. -/
theorem llm_merge_cex :
    (fastAnalyze wNow "latest stuff").timeType = some "past" ∧
    (analyze (fun _ => some ({ timeType := some "specific" } : LlmOut)) wNow
      "latest stuff" true).timeType = some "specific" :=
  ⟨by with_unfolding_all decide, by with_unfolding_all decide⟩

set_option maxHeartbeats 1600000 in
theorem analyze_dates_preserved (llm : String → Option LlmOut)
    (now : PyDateTime) (query : String)
    (hdf : (fastAnalyze now query).dateFrom.isSome = true)
    (hdt : (fastAnalyze now query).dateTo.isSome = true) :
    (analyze llm now query true).dateFrom = (fastAnalyze now query).dateFrom ∧
    (analyze llm now query true).dateTo = (fastAnalyze now query).dateTo := by
  unfold analyze
  by_cases hc : (fastAnalyze now query).confidence < 7/10
  case neg => simp [hc]
  case pos =>
    rw [if_pos (by simp [hc])]
    unfold analyzeWithLlm
    set fast := fastAnalyze now query with hEq
    clear_value fast
    clear hEq hc
    obtain ⟨x, hx⟩ := Option.isSome_iff_exists.mp hdf
    obtain ⟨y, hy⟩ := Option.isSome_iff_exists.mp hdt
    cases hl : llm query
    case none => simp
    case some d =>
      rcases hdF : d.dateFrom with _ | dfv | _ <;>
      rcases hdT : d.dateTo with _ | dtv | _ <;>
      by_cases he : d.entities = [] <;> by_cases hs : d.sources = [] <;>
      by_cases htt : pyStrTruthy d.timeType <;>
      by_cases hit : pyStrTruthy d.intent <;>
      simp [llmDateStep, hx, hy, he, hs, htt, hit, hdF, hdT]

set_option maxRecDepth 100000 in
/-- Claim C4 (confirmed): the year the analyzer picks for a bare month
reference is the greatest year whose occurrence of that month is not after
now, with the current year chosen when the month equals the current month;
and evaluating the bare-month query with now in December 2025 resolves to
November 2025 while now in June 2025 resolves to November 2024, for every
behaviour of the LLM slow path. -/
theorem bare_month_resolution :
    (∀ (now : PyDateTime) (mth : Nat), 1 ≤ mth → mth ≤ 12 →
      1 ≤ now.month → now.month ≤ 12 →
      (standaloneMonthYear now mth * 12 + mth ≤ now.year * 12 + now.month ∧
       (∀ y : Int, y * 12 + mth ≤ now.year * 12 + now.month →
         y ≤ standaloneMonthYear now mth) ∧
       (mth = now.month → standaloneMonthYear now mth = now.year))) ∧
    (∀ llm : String → Option LlmOut,
      (analyze llm ⟨2025, 12, 19, 0, 0, 0, some 0⟩ "november\x27s emails" true).dateFrom
        = some ⟨2025, 11, 1, 0, 0, 0, some 0⟩ ∧
      (analyze llm ⟨2025, 12, 19, 0, 0, 0, some 0⟩ "november\x27s emails" true).dateTo
        = some ⟨2025, 11, 30, 23, 59, 59, some 0⟩) ∧
    (∀ llm : String → Option LlmOut,
      (analyze llm ⟨2025, 6, 1, 0, 0, 0, some 0⟩ "november\x27s emails" true).dateFrom
        = some ⟨2024, 11, 1, 0, 0, 0, some 0⟩ ∧
      (analyze llm ⟨2025, 6, 1, 0, 0, 0, some 0⟩ "november\x27s emails" true).dateTo
        = some ⟨2024, 11, 30, 23, 59, 59, some 0⟩) := by
  refine ⟨?_, ?_, ?_⟩
  · intro now mth h1 h2 h3 h4
    refine ⟨?_, ?_, ?_⟩
    · unfold standaloneMonthYear
      split_ifs with h <;> omega
    · intro y hy
      unfold standaloneMonthYear
      split_ifs with h <;> omega
    · intro h
      unfold standaloneMonthYear
      split_ifs with hh <;> omega
  · intro llm
    have h := analyze_dates_preserved llm ⟨2025, 12, 19, 0, 0, 0, some 0⟩
      "november\x27s emails" (by with_unfolding_all decide)
      (by with_unfolding_all decide)
    rw [h.1, h.2]
    exact ⟨by with_unfolding_all decide, by with_unfolding_all decide⟩
  · intro llm
    have h := analyze_dates_preserved llm ⟨2025, 6, 1, 0, 0, 0, some 0⟩
      "november\x27s emails" (by with_unfolding_all decide)
      (by with_unfolding_all decide)
    rw [h.1, h.2]
    exact ⟨by with_unfolding_all decide, by with_unfolding_all decide⟩

set_option maxRecDepth 100000 in
theorem bare_month_resolution_witness :
    standaloneMonthYear ⟨2025, 6, 1, 0, 0, 0, some 0⟩ 11 * 12 + 11 ≤ 2025 * 12 + 6 ∧
    (analyze (fun _ => none) ⟨2025, 12, 19, 0, 0, 0, some 0⟩
      "november\x27s emails" true).dateFrom = some ⟨2025, 11, 1, 0, 0, 0, some 0⟩ :=
  ⟨(bare_month_resolution.1 ⟨2025, 6, 1, 0, 0, 0, some 0⟩ 11 (by norm_num)
      (by norm_num) (by norm_num) (by norm_num)).1,
   (bare_month_resolution.2.1 (fun _ => none)).1⟩

theorem anyId_eq (acc : List RItem) (b : String) :
    (acc.any (fun e => e.id = b) = true) ↔ b ∈ acc.map (fun e => e.id) := by
  rw [List.any_eq_true]
  constructor
  · rintro ⟨e, he, heq⟩
    exact List.mem_map.mpr ⟨e, he, by simpa using heq.symm⟩
  · intro hb
    obtain ⟨e, he, heq⟩ := List.mem_map.mp hb
    exact ⟨e, he, by simpa using heq⟩

theorem insertMerge_map_id (acc : List RItem) (item : RItem) :
    (insertMerge acc item).map (fun e => e.id)
      = if acc.any (fun e => e.id = item.id) then acc.map (fun e => e.id)
        else acc.map (fun e => e.id) ++ [item.id] := by
  unfold insertMerge
  by_cases h : acc.any (fun e => e.id = item.id)
  · simp only [h, if_true, List.map_map]
    apply List.map_congr_left
    intro e _
    by_cases heq : e.id = item.id <;> simp [heq]
  · simp [h]

theorem foldl_insertMerge_mem (rs : List RItem) :
    ∀ (acc : List RItem) (b : String),
      b ∈ (rs.foldl insertMerge acc).map (fun e => e.id)
        ↔ b ∈ acc.map (fun e => e.id) ∨ b ∈ rs.map (fun e => e.id) := by
  induction rs with
  | nil => simp
  | cons x xs ih =>
    intro acc b
    simp only [List.foldl_cons, List.map_cons, List.mem_cons]
    rw [ih, insertMerge_map_id]
    by_cases h : acc.any (fun e => e.id = x.id)
    · simp only [h, if_true]
      constructor
      · rintro (hb | hb)
        · exact Or.inl hb
        · exact Or.inr (Or.inr hb)
      · rintro (hb | hb | hb)
        · exact Or.inl hb
        · exact Or.inl (hb ▸ (anyId_eq acc x.id).mp h)
        · exact Or.inr hb
    · rw [if_neg h]
      simp only [List.mem_append, List.mem_singleton]
      tauto

theorem mergeResults_mem_id (rs : List RItem) (b : String) :
    b ∈ (mergeResults rs).map (fun e => e.id) ↔ b ∈ rs.map (fun e => e.id) := by
  unfold mergeResults
  rw [foldl_insertMerge_mem]
  simp

theorem mergeResults_ne_nil (rs : List RItem) (h : rs ≠ []) :
    mergeResults rs ≠ [] := by
  intro hm
  rcases rs with _ | ⟨x, xs⟩
  · exact h rfl
  · have hx : x.id ∈ ((x :: xs).map (fun e => e.id)) := by simp
    have := (mergeResults_mem_id (x :: xs) x.id).mpr hx
    rw [hm] at this
    simp at this

theorem foldl_insertMerge_nodup (rs : List RItem) :
    ∀ acc : List RItem, (acc.map (fun e => e.id)).Nodup →
      ((rs.foldl insertMerge acc).map (fun e => e.id)).Nodup := by
  induction rs with
  | nil => intro acc h; simpa using h
  | cons x xs ih =>
    intro acc hacc
    simp only [List.foldl_cons]
    apply ih
    rw [insertMerge_map_id]
    by_cases h : acc.any (fun e => e.id = x.id)
    · rw [if_pos h]
      exact hacc
    · rw [if_neg h]
      have hnot : x.id ∉ acc.map (fun e => e.id) := by
        intro hx
        exact h ((anyId_eq acc x.id).mpr hx)
      simp [List.nodup_append, hacc, hnot]

theorem mergeResults_nodup (rs : List RItem) :
    ((mergeResults rs).map (fun e => e.id)).Nodup := by
  unfold mergeResults
  exact foldl_insertMerge_nodup rs [] (by simp)

/-- Claim C6 (confirmed): with a truthy source filter, when the combined
strategy results are empty the candidates are exactly the no-source-filter
full-text retry followed, if that is empty, by the no-source-filter keyword
retry; consequently, when matching items exist outside the filtered sources
(either retry is non-empty) and the requested limit is at least 1 (the API
schema enforces limit >= 1), the returned result set is non-empty. -/
theorem source_filter_fallback (m : Model) (now : PyDateTime)
    (userId query : String) (sources : Option (List String))
    (ef : Option String) (df dt : Option PyDateTime) (lim : Nat)
    (expl : Option (List String))
    (hsrc : pyTruthyList sources = true)
    (hlim : 1 ≤ lim)
    (hmatch : ftsSearch m userId query none df dt lim ≠ [] ∨
      keywordSearch m.items userId query none df dt (lim * 2) ≠ []) :
    ((semanticSearch m userId query sources df dt (lim * 2)
        ++ (if pyStrTruthy ef then
              entitySearch m userId (ef.getD "") sources df dt lim else [])
        ++ ftsSearch m userId query sources df dt lim
        ++ (if (semanticSearch m userId query sources df dt (lim * 2)).isEmpty then
              keywordSearch m.items userId query sources df dt (lim * 2) else [])) = [] →
      retrieveCandidates m userId query sources ef df dt lim
        = ftsSearch m userId query none df dt lim
          ++ (if (ftsSearch m userId query none df dt lim).isEmpty then
                keywordSearch m.items userId query none df dt (lim * 2) else [])) ∧
    (retrieve m now userId query sources none ef df dt lim expl).items ≠ [] := by
  have hstruct : (semanticSearch m userId query sources df dt (lim * 2)
        ++ (if pyStrTruthy ef then
              entitySearch m userId (ef.getD "") sources df dt lim else [])
        ++ ftsSearch m userId query sources df dt lim
        ++ (if (semanticSearch m userId query sources df dt (lim * 2)).isEmpty then
              keywordSearch m.items userId query sources df dt (lim * 2) else [])) = [] →
      retrieveCandidates m userId query sources ef df dt lim
        = ftsSearch m userId query none df dt lim
          ++ (if (ftsSearch m userId query none df dt lim).isEmpty then
                keywordSearch m.items userId query none df dt (lim * 2) else []) := by
    intro hempty
    simp only [retrieveCandidates]
    rw [hempty]
    simp [hsrc]
  refine ⟨hstruct, ?_⟩
  have hcand : retrieveCandidates m userId query sources ef df dt lim ≠ [] := by
    by_cases hempty : (semanticSearch m userId query sources df dt (lim * 2)
        ++ (if pyStrTruthy ef then
              entitySearch m userId (ef.getD "") sources df dt lim else [])
        ++ ftsSearch m userId query sources df dt lim
        ++ (if (semanticSearch m userId query sources df dt (lim * 2)).isEmpty then
              keywordSearch m.items userId query sources df dt (lim * 2) else [])) = []
    · rw [hstruct hempty]
      by_cases hfts : ftsSearch m userId query none df dt lim = []
      · rcases hmatch with hf | hk
        · exact absurd hfts hf
        · simp [hfts, List.isEmpty_iff, hk]
      · intro hcontra
        rw [List.append_eq_nil] at hcontra
        exact hfts hcontra.1
    · simp only [retrieveCandidates]
      rw [if_neg]
      · exact hempty
      · intro hcontra
        rw [Bool.and_eq_true, List.isEmpty_iff] at hcontra
        exact hempty hcontra.2
  simp only [retrieve]
  have hdates : pyStrTruthy (none : Option String) = false := rfl
  rw [hdates]
  simp only [Bool.false_eq_true, if_false]
  intro htake
  rw [List.take_eq_nil_iff] at htake
  rcases htake with h0 | hnil
  · omega
  · have hperm := pySortDesc_perm
      (qGe (fun it => it.relevanceScore.getD 0))
      (calcRelevance now (mergeResults
        (retrieveCandidates m userId query sources ef df dt lim))
        (extractQueryEntities m userId query) df expl)
    rw [hnil] at hperm
    have hscored : (calcRelevance now (mergeResults
        (retrieveCandidates m userId query sources ef df dt lim))
        (extractQueryEntities m userId query) df expl) = [] :=
      List.Perm.eq_nil hperm.symm
    unfold calcRelevance at hscored
    rw [List.map_eq_nil_iff] at hscored
    exact mergeResults_ne_nil _ hcand hscored

set_option maxRecDepth 100000 in
theorem source_filter_fallback_witness :
    (retrieve wC6Model wNow "u" "hello" (some ["jira"]) none none none none
      10 none).items ≠ [] :=
  (source_filter_fallback wC6Model wNow "u" "hello" (some ["jira"]) none none
    none 10 none rfl (by norm_num)
    (Or.inr (by with_unfolding_all decide))).2

theorem pyTruthyList_some {α : Type} (l : List α) (h : l ≠ []) :
    pyTruthyList (some l) = true := by
  cases l with
  | nil => exact absurd rfl h
  | cons a t => rfl

theorem count_flatten_by_source (f : String → List KItem) (src : String)
    (perLimit : Nat)
    (hty : ∀ s : String, ∀ it ∈ f s, it.sourceType = s)
    (hlen : ∀ s : String, (f s).length ≤ perLimit) :
    ∀ ss : List String, ss.Nodup →
      (((ss.map f).flatten).filter (fun it => it.sourceType = src)).length
        ≤ if src ∈ ss then perLimit else 0 := by
  intro ss
  induction ss with
  | nil => simp
  | cons s rest ih =>
    intro hnodup
    rw [List.nodup_cons] at hnodup
    simp only [List.map_cons, List.flatten_cons, List.filter_append,
      List.length_append]
    by_cases hsrc : s = src
    · subst hsrc
      have h1 : ((f s).filter (fun it => it.sourceType = s)).length ≤ perLimit :=
        le_trans ((List.filter_sublist (f s)).length_le) (hlen s)
      have h2 := ih hnodup.2
      rw [if_neg hnodup.1] at h2
      rw [if_pos (by simp)]
      omega
    · have h1 : (f s).filter (fun it => it.sourceType = src) = [] := by
        rw [List.filter_eq_nil_iff]
        intro a ha
        simp only [decide_eq_true_eq]
        rw [hty s a ha]
        exact hsrc
      rw [h1]
      have h2 := ih hnodup.2
      by_cases hmem : src ∈ rest
      · rw [if_pos hmem] at h2
        rw [if_pos (by simp [hmem])]
        simpa using h2
      · rw [if_neg hmem] at h2
        have hns : src ∉ s :: rest := by
          intro hc
          rcases List.mem_cons.mp hc with hc | hc
          · exact hsrc hc.symm
          · exact hmem hc
        rw [if_neg hns]
        simpa using h2

theorem length_filter_map_eq {α β : Type} (f : α → β) (p : β → Bool)
    (q : α → Bool) (l : List α) (h : ∀ x, p (f x) = q x) :
    ((l.map f).filter p).length = (l.filter q).length := by
  rw [List.filter_map, List.length_map]
  congr 1
  apply List.filter_congr
  intro x _
  exact h x

theorem mem_perSourceFetch (items : List KItem) (userId : String)
    (src : String) (n : Nat) (it : KItem)
    (hit : it ∈ (pySortDesc (sqlCreatedGe (fun it => it.sourceCreatedAt))
      (items.filter (fun it => it.userId = userId && it.sourceType = src))).take n) :
    it ∈ items ∧ it.userId = userId ∧ it.sourceType = src := by
  have h1 := List.take_subset _ _ hit
  rw [mem_pySortDesc] at h1
  have h2 := List.mem_filter.mp h1
  refine ⟨h2.1, ?_, ?_⟩
  · have := h2.2
    simp only [Bool.and_eq_true, decide_eq_true_eq] at this
    exact this.1
  · have := h2.2
    simp only [Bool.and_eq_true, decide_eq_true_eq] at this
    exact this.2

/-- Claim C5 (confirmed): with more than one requested source the temporal
strategy fetches at most max(2, limit div num_sources) items per source
(first conjunct: the returned slice never carries more than that many items
of any one source), and with limit 6 and two populated sources the returned
slice contains items of both sources. -/
theorem temporal_balance (items : List KItem) (userId : String) :
    (∀ (sources : List String) (lim : Nat), 2 ≤ sources.length →
      sources.Nodup → ∀ src ∈ sources,
      ((getMostRecent items userId (some sources) lim).filter
        (fun it => it.source = src)).length ≤ max 2 (lim / sources.length)) ∧
    (∀ s1 s2 : String, s1 ≠ s2 →
      (∃ a ∈ items, a.userId = userId ∧ a.sourceType = s1) →
      (∃ b ∈ items, b.userId = userId ∧ b.sourceType = s2) →
      (∃ x ∈ getMostRecent items userId (some [s1, s2]) 6, x.source = s1) ∧
      (∃ y ∈ getMostRecent items userId (some [s1, s2]) 6, y.source = s2)) := by
  have hBranch : ∀ (sources : List String) (lim : Nat), 2 ≤ sources.length →
      getMostRecent items userId (some sources) lim
        = ((pySortDesc pyCreatedGe
            ((sources.map (fun src =>
              (pySortDesc (sqlCreatedGe (fun it => it.sourceCreatedAt))
                (items.filter (fun it =>
                  it.userId = userId && it.sourceType = src))).take
                    (max 2 (lim / sources.length)))).flatten)).take lim).map
          (fun it => { kitemBase it with
            relevanceScore := some (9/10), retrievalMethod := "temporal" }) := by
    intro sources lim hlen
    have hne : sources ≠ [] := by
      intro h
      rw [h] at hlen
      simp at hlen
    unfold getMostRecent
    rw [if_pos]
    · simp
    · rw [Bool.and_eq_true]
      refine ⟨pyTruthyList_some sources hne, ?_⟩
      simp only [Option.getD_some, decide_eq_true_eq]
      omega
  constructor
  · intro sources lim hlen hnodup src hsrc
    set perLimit := max 2 (lim / sources.length) with hperDef
    set f := fun src => (pySortDesc (sqlCreatedGe (fun it => it.sourceCreatedAt))
      (items.filter (fun it =>
        it.userId = userId && it.sourceType = src))).take perLimit with hf
    have hty : ∀ s : String, ∀ it ∈ f s, it.sourceType = s := by
      intro s it hit
      exact (mem_perSourceFetch items userId s perLimit it hit).2.2
    have hlenf : ∀ s : String, (f s).length ≤ perLimit := by
      intro s
      exact List.length_take_le _ _
    have hcount := count_flatten_by_source f src perLimit hty hlenf sources hnodup
    rw [if_pos hsrc] at hcount
    have key : ((getMostRecent items userId (some sources) lim).filter
        (fun it => it.source = src)).length
        = (List.filter (fun it => it.sourceType = src)
            ((pySortDesc pyCreatedGe ((sources.map f).flatten)).take lim)).length := by
      rw [hBranch sources lim hlen]
      exact length_filter_map_eq _ _ _ _ (fun x => rfl)
    rw [key]
    calc (List.filter (fun it => it.sourceType = src)
            ((pySortDesc pyCreatedGe ((sources.map f).flatten)).take lim)).length
        ≤ (List.filter (fun it => it.sourceType = src)
            (pySortDesc pyCreatedGe ((sources.map f).flatten))).length :=
          ((List.take_sublist lim _).filter _).length_le
      _ = (List.filter (fun it => it.sourceType = src)
            ((sources.map f).flatten)).length := by
          rw [← List.countP_eq_length_filter, ← List.countP_eq_length_filter]
          exact (pySortDesc_perm pyCreatedGe _).countP_eq _
      _ ≤ perLimit := hcount
  · intro s1 s2 h12 hA hB
    obtain ⟨a, ha, hau, has⟩ := hA
    obtain ⟨b, hb, hbu, hbs⟩ := hB
    rw [hBranch [s1, s2] 6 (by norm_num)]
    set f := fun src => (pySortDesc (sqlCreatedGe (fun it => it.sourceCreatedAt))
      (items.filter (fun it =>
        it.userId = userId && it.sourceType = src))).take
          (max 2 (6 / ([s1, s2] : List String).length)) with hf
    have hfne : ∀ (c : KItem) (src : String), c ∈ items → c.userId = userId →
        c.sourceType = src → f src ≠ [] := by
      intro c src hc hcu hcs h
      rw [hf] at h
      rw [List.take_eq_nil_iff] at h
      rcases h with h | h
      · simp only [List.length_cons, List.length_nil] at h
        omega
      · have : c ∈ pySortDesc (sqlCreatedGe (fun it => it.sourceCreatedAt))
            (items.filter (fun it => it.userId = userId && it.sourceType = src)) := by
          rw [mem_pySortDesc]
          rw [List.mem_filter]
          exact ⟨hc, by simp [hcu, hcs]⟩
        rw [h] at this
        simp at this
    have hflatten : (([s1, s2].map f)).flatten = f s1 ++ (f s2 ++ []) := by
      simp
    have hlenflat : ((([s1, s2] : List String).map f)).flatten.length ≤ 6 := by
      rw [hflatten]
      simp only [List.append_nil, List.length_append]
      have h1 : (f s1).length ≤ 3 := by
        have h := List.length_take_le (max 2 (6 / ([s1, s2] : List String).length))
          (pySortDesc (sqlCreatedGe (fun it => it.sourceCreatedAt))
            (items.filter (fun it => it.userId = userId && it.sourceType = s1)))
        refine le_trans h ?_
        simp only [List.length_cons, List.length_nil]
        omega
      have h2 : (f s2).length ≤ 3 := by
        have h := List.length_take_le (max 2 (6 / ([s1, s2] : List String).length))
          (pySortDesc (sqlCreatedGe (fun it => it.sourceCreatedAt))
            (items.filter (fun it => it.userId = userId && it.sourceType = s2)))
        refine le_trans h ?_
        simp only [List.length_cons, List.length_nil]
        omega
      omega
    have htake : (pySortDesc pyCreatedGe (([s1, s2].map f)).flatten).take 6
        = pySortDesc pyCreatedGe (([s1, s2].map f)).flatten := by
      apply List.take_of_length_le
      rw [(pySortDesc_perm pyCreatedGe _).length_eq]
      exact hlenflat
    rw [htake]
    constructor
    · obtain ⟨x0, hx0⟩ := List.exists_mem_of_ne_nil (f s1) (hfne a s1 ha hau has)
      have hx0m : x0 ∈ pySortDesc pyCreatedGe
          ((([s1, s2] : List String).map f)).flatten := by
        rw [mem_pySortDesc, hflatten]
        simp only [List.append_nil, List.mem_append]
        exact Or.inl hx0
      refine ⟨_, List.mem_map.mpr ⟨x0, hx0m, rfl⟩, ?_⟩
      exact (mem_perSourceFetch items userId s1 _ x0 hx0).2.2
    · obtain ⟨y0, hy0⟩ := List.exists_mem_of_ne_nil (f s2) (hfne b s2 hb hbu hbs)
      have hy0m : y0 ∈ pySortDesc pyCreatedGe
          ((([s1, s2] : List String).map f)).flatten := by
        rw [mem_pySortDesc, hflatten]
        simp only [List.append_nil, List.mem_append]
        exact Or.inr hy0
      refine ⟨_, List.mem_map.mpr ⟨y0, hy0m, rfl⟩, ?_⟩
      exact (mem_perSourceFetch items userId s2 _ y0 hy0).2.2

theorem temporal_balance_witness :
    (∃ x ∈ getMostRecent [wTbA, wTbB] "u" (some ["gmail", "jira"]) 6,
      x.source = "gmail") ∧
    (∃ y ∈ getMostRecent [wTbA, wTbB] "u" (some ["gmail", "jira"]) 6,
      y.source = "jira") :=
  (temporal_balance [wTbA, wTbB] "u").2 "gmail" "jira" (by decide)
    ⟨wTbA, by simp, rfl, rfl⟩ ⟨wTbB, by simp, rfl, rfl⟩

theorem findSome?_singleton {α β : Type} (f : α → Option β) (a : α) :
    [a].findSome? f = f a := by
  rcases h : f a with _ | v <;> simp [List.findSome?_cons, h]

theorem nodup_take_of_nodup {α : Type} (l : List α) (n : Nat) (h : l.Nodup) :
    (l.take n).Nodup :=
  h.sublist (List.take_sublist n l)

theorem nodup_map_id_sortTake (ge : RItem → RItem → Bool) (l : List RItem)
    (n : Nat) (h : (l.map (fun e => e.id)).Nodup) :
    (((pySortDesc ge l).take n).map (fun e => e.id)).Nodup := by
  rw [List.map_take]
  apply nodup_take_of_nodup
  rw [((pySortDesc_perm ge l).map (fun e => e.id)).nodup_iff]
  exact h

theorem map_filterMap_sublist {α β γ : Type} (f : α → Option β) (g : α → γ)
    (h : β → γ) (hfg : ∀ a b, f a = some b → h b = g a) :
    ∀ l : List α, ((l.filterMap f).map h).Sublist (l.map g) := by
  intro l
  induction l with
  | nil => simp
  | cons a t ih =>
    rcases hfa : f a with _ | b
    · rw [List.filterMap_cons, hfa]
      show ((t.filterMap f).map h).Sublist (g a :: t.map g)
      exact List.Sublist.cons (g a) ih
    · rw [List.filterMap_cons, hfa]
      show ((b :: t.filterMap f).map h).Sublist (g a :: t.map g)
      rw [List.map_cons, hfg a b hfa]
      exact List.Sublist.cons₂ (g a) ih

theorem mem_ite_list {α : Type} {x : α} {c : Prop} [Decidable c]
    {l1 l2 : List α} (h : x ∈ if c then l1 else l2) : x ∈ l1 ∨ x ∈ l2 := by
  split at h
  · exact Or.inl h
  · exact Or.inr h

theorem sqlItemQuery_subset (items : List KItem) (userId : String)
    (cond : KItem → Bool) (sources : Option (List String))
    (df dt : Option PyDateTime) (lim : Nat) :
    ∀ k ∈ sqlItemQuery items userId cond sources df dt lim, k ∈ items := by
  intro k hk
  have h1 := List.take_subset _ _ hk
  rw [mem_pySortDesc] at h1
  exact (List.mem_filter.mp h1).1

theorem semanticSearch_ids (m : Model) (userId query : String)
    (sources : Option (List String)) (df dt : Option PyDateTime) (lim : Nat) :
    ∀ it ∈ semanticSearch m userId query sources df dt lim,
      ∃ k ∈ m.items, it.id = k.id := by
  intro it hit
  simp only [semanticSearch] at hit
  split at hit
  · simp at hit
  · have h1 := List.take_subset _ _ hit
    obtain ⟨r, hr, heq⟩ := List.mem_filterMap.mp h1
    split at heq
    · rename_i k hidx
      split at heq
      · obtain rfl := Option.some.inj heq
        exact ⟨k, List.getElem?_mem hidx, rfl⟩
      · exact Option.noConfusion heq
    · exact Option.noConfusion heq

theorem ftsSearch_ids (m : Model) (userId query : String)
    (sources : Option (List String)) (df dt : Option PyDateTime) (lim : Nat) :
    ∀ it ∈ ftsSearch m userId query sources df dt lim,
      ∃ k ∈ m.items, it.id = k.id := by
  intro it hit
  simp only [ftsSearch] at hit
  have h1 := List.take_subset _ _ hit
  obtain ⟨r, hr, heq⟩ := List.mem_filterMap.mp h1
  split at heq
  · rename_i k hidx
    split at heq
    · obtain rfl := Option.some.inj heq
      exact ⟨k, List.getElem?_mem hidx, rfl⟩
    · exact Option.noConfusion heq
  · exact Option.noConfusion heq

theorem entitySearch_ids (m : Model) (userId entityName : String)
    (sources : Option (List String)) (df dt : Option PyDateTime) (lim : Nat) :
    ∀ it ∈ entitySearch m userId entityName sources df dt lim,
      ∃ k ∈ m.items, it.id = k.id := by
  intro it hit
  simp only [entitySearch] at hit
  have h1 := List.take_subset _ _ hit
  obtain ⟨r, hr, heq⟩ := List.mem_filterMap.mp h1
  split at heq
  · rename_i k hidx
    split at heq
    · obtain rfl := Option.some.inj heq
      exact ⟨k, List.getElem?_mem hidx, rfl⟩
    · exact Option.noConfusion heq
  · exact Option.noConfusion heq

theorem keywordSearch_ids (items : List KItem) (userId query : String)
    (sources : Option (List String)) (df dt : Option PyDateTime) (lim : Nat) :
    ∀ it ∈ keywordSearch items userId query sources df dt lim,
      ∃ k ∈ items, it.id = k.id := by
  intro it hit
  simp only [keywordSearch] at hit
  split at hit
  · simp at hit
  · obtain ⟨k, hk, heq⟩ := List.mem_map.mp hit
    obtain rfl := heq
    exact ⟨k, sqlItemQuery_subset _ _ _ _ _ _ _ k hk, rfl⟩

theorem metadataSearch_ids (items : List KItem) (userId : String)
    (entities : List String) (sources : Option (List String))
    (df dt : Option PyDateTime) (lim : Nat) :
    ∀ it ∈ metadataSearch items userId entities sources df dt lim,
      ∃ k ∈ items, it.id = k.id := by
  intro it hit
  simp only [metadataSearch] at hit
  split at hit
  · simp at hit
  · obtain ⟨l, hl, hitl⟩ := List.mem_flatten.mp hit
    obtain ⟨ent, hent, hleq⟩ := List.mem_map.mp hl
    obtain rfl := hleq
    obtain ⟨k, hk, heq⟩ := List.mem_map.mp hitl
    obtain rfl := heq
    exact ⟨k, sqlItemQuery_subset _ _ _ _ _ _ _ k hk, rfl⟩

theorem getMostRecent_ids (items : List KItem) (userId : String)
    (sources : Option (List String)) (lim : Nat) :
    ∀ it ∈ getMostRecent items userId sources lim,
      ∃ k ∈ items, it.id = k.id := by
  intro it hit
  simp only [getMostRecent] at hit
  obtain ⟨k, hk, heq⟩ := List.mem_map.mp hit
  obtain rfl := heq
  have hk2 := List.take_subset _ _ hk
  rw [mem_pySortDesc] at hk2
  refine ⟨k, ?_, rfl⟩
  rcases mem_ite_list hk2 with hk3 | hk3
  · obtain ⟨l, hl, hkl⟩ := List.mem_flatten.mp hk3
    obtain ⟨src, hsrc, hleq⟩ := List.mem_map.mp hl
    obtain rfl := hleq
    have hk4 := List.take_subset _ _ hkl
    rw [mem_pySortDesc] at hk4
    exact (List.mem_filter.mp hk4).1
  · exact sqlItemQuery_subset _ _ _ _ _ _ _ k hk3

theorem retrieveCandidates_ids (m : Model) (userId query : String)
    (sources : Option (List String)) (entityFilter : Option String)
    (df dt : Option PyDateTime) (lim : Nat) :
    ∀ r ∈ retrieveCandidates m userId query sources entityFilter df dt lim,
      ∃ k ∈ m.items, r.id = k.id := by
  intro r hr
  simp only [retrieveCandidates] at hr
  rcases mem_ite_list hr with hr | hr
  · rcases List.mem_append.mp hr with hr | hr
    · rcases List.mem_append.mp hr with hr | hr
      · rcases List.mem_append.mp hr with hr | hr
        · rcases List.mem_append.mp hr with hr | hr
          · rcases List.mem_append.mp hr with hr | hr
            · exact semanticSearch_ids m userId query sources df dt (lim * 2) r hr
            · rcases mem_ite_list hr with hr | hr
              · exact entitySearch_ids m userId _ sources df dt lim r hr
              · simp at hr
          · exact ftsSearch_ids m userId query sources df dt lim r hr
        · rcases mem_ite_list hr with hr | hr
          · exact keywordSearch_ids m.items userId query sources df dt (lim * 2) r hr
          · simp at hr
      · exact ftsSearch_ids m userId query none df dt lim r hr
    · rcases mem_ite_list hr with hr | hr
      · exact keywordSearch_ids m.items userId query none df dt (lim * 2) r hr
      · simp at hr
  · rcases List.mem_append.mp hr with hr | hr
    · rcases List.mem_append.mp hr with hr | hr
      · rcases List.mem_append.mp hr with hr | hr
        · exact semanticSearch_ids m userId query sources df dt (lim * 2) r hr
        · rcases mem_ite_list hr with hr | hr
          · exact entitySearch_ids m userId _ sources df dt lim r hr
          · simp at hr
      · exact ftsSearch_ids m userId query sources df dt lim r hr
    · rcases mem_ite_list hr with hr | hr
      · exact keywordSearch_ids m.items userId query sources df dt (lim * 2) r hr
      · simp at hr

theorem calcRelevance_map_id (now : PyDateTime) (items : List RItem)
    (queryEntities : List QEnt) (qd : Option PyDateTime)
    (es : Option (List String)) :
    (calcRelevance now items queryEntities qd es).map (fun e => e.id)
      = items.map (fun e => e.id) := by
  simp only [calcRelevance]
  rw [List.map_map]
  apply List.map_congr_left
  intro e _
  rfl

theorem retrieve_ids_nodup (m : Model) (now : PyDateTime) (userId query : String)
    (sources : Option (List String)) (timeFilter entityFilter : Option String)
    (df0 dt0 : Option PyDateTime) (lim : Nat) (es : Option (List String)) :
    (((retrieve m now userId query sources timeFilter entityFilter
      df0 dt0 lim es).items).map (fun e => e.id)).Nodup := by
  simp only [retrieve]
  apply nodup_map_id_sortTake
  rw [calcRelevance_map_id]
  exact mergeResults_nodup _

theorem retrieve_ids_subset (m : Model) (now : PyDateTime) (userId query : String)
    (sources : Option (List String)) (timeFilter entityFilter : Option String)
    (df0 dt0 : Option PyDateTime) (lim : Nat) (es : Option (List String)) :
    ∀ it ∈ (retrieve m now userId query sources timeFilter entityFilter
      df0 dt0 lim es).items, ∃ k ∈ m.items, it.id = k.id := by
  intro it hit
  simp only [retrieve] at hit
  have h1 := List.take_subset _ _ hit
  rw [mem_pySortDesc] at h1
  simp only [calcRelevance] at h1
  obtain ⟨r0, hr0, heq⟩ := List.mem_map.mp h1
  obtain rfl := heq
  have hr0id : r0.id ∈ (mergeResults (retrieveCandidates m userId query sources
      entityFilter (if pyStrTruthy timeFilter then
        resolveTimeFilter now (timeFilter.getD "") else (df0, dt0)).1
      (if pyStrTruthy timeFilter then
        resolveTimeFilter now (timeFilter.getD "") else (df0, dt0)).2 lim)).map
        (fun e => e.id) :=
    List.mem_map.mpr ⟨r0, hr0, rfl⟩
  rw [mergeResults_mem_id] at hr0id
  obtain ⟨r1, hr1, hr1eq⟩ := List.mem_map.mp hr0id
  obtain ⟨k, hk, hkid⟩ := retrieveCandidates_ids m userId query sources
    entityFilter _ _ lim r1 hr1
  refine ⟨k, hk, ?_⟩
  show r0.id = k.id
  rw [← hr1eq, hkid]

theorem dedupAppend_nodup (l : List RItem) :
    ∀ acc : List RItem, (acc.map (fun e => e.id)).Nodup →
      ((dedupAppend acc l).map (fun e => e.id)).Nodup := by
  induction l with
  | nil =>
    intro acc h
    simpa [dedupAppend] using h
  | cons x xs ih =>
    intro acc hacc
    have hstep : dedupAppend acc (x :: xs)
        = dedupAppend (if acc.any (fun e => e.id = x.id) then acc
            else acc ++ [x]) xs := by
      simp [dedupAppend]
    rw [hstep]
    apply ih
    by_cases h : acc.any (fun e => e.id = x.id)
    · rw [if_pos h]
      exact hacc
    · rw [if_neg h]
      have hnot : x.id ∉ acc.map (fun e => e.id) :=
        fun hx => h ((anyId_eq acc x.id).mpr hx)
      simp [List.nodup_append, hacc, hnot]

theorem dedupAppend_subset (l : List RItem) :
    ∀ (acc : List RItem) (x : RItem), x ∈ dedupAppend acc l →
      x ∈ acc ∨ x ∈ l := by
  induction l with
  | nil =>
    intro acc x hx
    simp [dedupAppend] at hx
    exact Or.inl hx
  | cons y ys ih =>
    intro acc x hx
    have hstep : dedupAppend acc (y :: ys)
        = dedupAppend (if acc.any (fun e => e.id = y.id) then acc
            else acc ++ [y]) ys := by
      simp [dedupAppend]
    rw [hstep] at hx
    rcases ih _ x hx with hx | hx
    · split at hx
      · exact Or.inl hx
      · rcases List.mem_append.mp hx with hx | hx
        · exact Or.inl hx
        · rw [List.mem_singleton] at hx
          exact Or.inr (by rw [hx]; exact List.mem_cons_self y ys)
    · exact Or.inr (List.mem_cons_of_mem _ hx)

theorem episodicItemOf_id (m : Model) (now : PyDateTime) (qe : List ℚ)
    (isCurrent : Bool) (s : PySession) (msg : PyMessage) (it : RItem)
    (h : episodicItemOf m now qe isCurrent s msg = some it) : it.id = msg.id := by
  simp only [episodicItemOf] at h
  split at h
  · exact Option.noConfusion h
  · split at h
    · exact Option.noConfusion h
    · obtain rfl := Option.some.inj h
      rfl

theorem episodicSessionItems_ids (m : Model) (now : PyDateTime) (qe : List ℚ)
    (cs : Option String) (s : PySession) :
    ((episodicSessionItems m now qe cs s).map (fun e => e.id)).Sublist
      ((((pySortDesc (sqlCreatedGe (fun msg => msg.createdAt))
        (m.messages.filter (fun msg => msg.sessionId = s.id))).take 20)).map
          (fun msg => msg.id)) := by
  simp only [episodicSessionItems]
  exact map_filterMap_sublist _ _ _
    (fun a b hab => episodicItemOf_id _ _ _ _ _ _ _ hab) _

theorem msgsOf_ids_nodup (m : Model) (s : PySession)
    (h2 : (m.messages.map (fun msg => msg.id)).Nodup) :
    ((((pySortDesc (sqlCreatedGe (fun msg => msg.createdAt))
      (m.messages.filter (fun msg => msg.sessionId = s.id))).take 20)).map
        (fun msg => msg.id)).Nodup := by
  rw [List.map_take]
  apply nodup_take_of_nodup
  rw [((pySortDesc_perm _ _).map _).nodup_iff]
  exact h2.sublist ((List.filter_sublist _).map _)

theorem sessionsTaken_ids_nodup (m : Model) (userId : String)
    (h4 : (m.sessions.map (fun s => s.id)).Nodup) :
    (((pySortDesc sessionGe (m.sessions.filter
      (fun s => s.userId = userId))).take 10).map (fun s => s.id)).Nodup := by
  rw [List.map_take]
  apply nodup_take_of_nodup
  rw [((pySortDesc_perm _ _).map _).nodup_iff]
  exact h4.sublist ((List.filter_sublist _).map _)

theorem getEpisodicMemory_ids_nodup (m : Model) (now : PyDateTime)
    (userId query : String) (cs : Option String) (lim : Nat)
    (h2 : (m.messages.map (fun msg => msg.id)).Nodup)
    (h4 : (m.sessions.map (fun s => s.id)).Nodup) :
    ((getEpisodicMemory m now userId query cs lim).map (fun e => e.id)).Nodup := by
  simp only [getEpisodicMemory]
  apply nodup_map_id_sortTake
  rw [List.map_flatten, List.map_map, List.nodup_flatten]
  constructor
  · intro l hl
    obtain ⟨s, hs, hleq⟩ := List.mem_map.mp hl
    obtain rfl := hleq
    exact (msgsOf_ids_nodup m s h2).sublist (episodicSessionItems_ids m now _ cs s)
  · rw [List.pairwise_map]
    have hpw : ((pySortDesc sessionGe (m.sessions.filter
        (fun s => s.userId = userId))).take 10).Pairwise
        (fun s t => s.id ≠ t.id) := by
      have h5 := sessionsTaken_ids_nodup m userId h4
      simp only [List.Nodup] at h5
      rw [List.pairwise_map] at h5
      exact h5
    refine List.Pairwise.imp ?_ hpw
    intro s t hne
    intro x hxs hxt
    have hxs2 := (episodicSessionItems_ids m now _ cs s).subset hxs
    have hxt2 := (episodicSessionItems_ids m now _ cs t).subset hxt
    obtain ⟨msg1, hm1, he1⟩ := List.mem_map.mp hxs2
    obtain ⟨msg2, hm2, he2⟩ := List.mem_map.mp hxt2
    have hm1f : msg1 ∈ m.messages.filter (fun msg => msg.sessionId = s.id) := by
      have h6 := List.take_subset _ _ hm1
      rwa [mem_pySortDesc] at h6
    have hm2f : msg2 ∈ m.messages.filter (fun msg => msg.sessionId = t.id) := by
      have h6 := List.take_subset _ _ hm2
      rwa [mem_pySortDesc] at h6
    have hmm1 := List.mem_filter.mp hm1f
    have hmm2 := List.mem_filter.mp hm2f
    have heq12 : msg1 = msg2 :=
      List.inj_on_of_nodup_map h2 hmm1.1 hmm2.1 (by rw [he1, he2])
    have hs1 : msg1.sessionId = s.id := by simpa using hmm1.2
    have hs2 : msg2.sessionId = t.id := by simpa using hmm2.2
    exact hne (by rw [← hs1, heq12, hs2])

theorem getEpisodicMemory_ids_subset (m : Model) (now : PyDateTime)
    (userId query : String) (cs : Option String) (lim : Nat) :
    ∀ it ∈ getEpisodicMemory m now userId query cs lim,
      ∃ msg ∈ m.messages, it.id = msg.id := by
  intro it hit
  simp only [getEpisodicMemory] at hit
  have h1 := List.take_subset _ _ hit
  rw [mem_pySortDesc] at h1
  obtain ⟨l, hl, hitl⟩ := List.mem_flatten.mp h1
  obtain ⟨s, hs, hleq⟩ := List.mem_map.mp hl
  obtain rfl := hleq
  simp only [episodicSessionItems] at hitl
  obtain ⟨msg, hmsg, hmeq⟩ := List.mem_filterMap.mp hitl
  have hmm : msg ∈ m.messages := by
    have h6 := List.take_subset _ _ hmsg
    rw [mem_pySortDesc] at h6
    exact (List.mem_filter.mp h6).1
  exact ⟨msg, hmm, episodicItemOf_id _ _ _ _ _ _ _ hmeq⟩

theorem foldl_insertMerge_invariant (rs : List RItem) :
    ∀ acc processed : List RItem,
      (∀ b : String, b ∈ acc.map (fun e => e.id)
        ↔ b ∈ processed.map (fun e => e.id)) →
      (∀ it ∈ acc,
        it.semanticScore = (processed.filter (fun r => r.id = it.id)).findSome?
          (fun r => r.semanticScore) ∧
        it.ftsRank = (processed.filter (fun r => r.id = it.id)).findSome?
          (fun r => r.ftsRank) ∧
        it.entityMatch = (processed.filter (fun r => r.id = it.id)).findSome?
          (fun r => r.entityMatch)) →
      ∀ it ∈ rs.foldl insertMerge acc,
        it.semanticScore = ((processed ++ rs).filter
          (fun r => r.id = it.id)).findSome? (fun r => r.semanticScore) ∧
        it.ftsRank = ((processed ++ rs).filter
          (fun r => r.id = it.id)).findSome? (fun r => r.ftsRank) ∧
        it.entityMatch = ((processed ++ rs).filter
          (fun r => r.id = it.id)).findSome? (fun r => r.entityMatch) := by
  induction rs with
  | nil =>
    intro acc processed hmem hsig it hit
    simp only [List.foldl_nil] at hit
    simpa using hsig it hit
  | cons x xs ih =>
    intro acc processed hmem hsig it hit
    simp only [List.foldl_cons] at hit
    have happ : processed ++ x :: xs = (processed ++ [x]) ++ xs := by simp
    rw [happ]
    refine ih (insertMerge acc x) (processed ++ [x]) ?_ ?_ it hit
    · intro b
      rw [insertMerge_map_id, List.map_append]
      by_cases h : acc.any (fun e => e.id = x.id)
      · rw [if_pos h]
        rw [hmem b]
        simp only [List.mem_append, List.map_cons, List.map_nil,
          List.mem_singleton]
        constructor
        · exact Or.inl
        · rintro (hb | hb)
          · exact hb
          · rw [hb]
            exact (hmem x.id).mp ((anyId_eq acc x.id).mp h)
      · rw [if_neg h]
        simp only [List.mem_append, List.map_cons, List.map_nil,
          List.mem_singleton]
        constructor
        · rintro (hb | hb)
          · exact Or.inl ((hmem b).mp hb)
          · exact Or.inr hb
        · rintro (hb | hb)
          · exact Or.inl ((hmem b).mpr hb)
          · exact Or.inr hb
    · intro e2 he2
      unfold insertMerge at he2
      by_cases h : acc.any (fun e => e.id = x.id)
      · rw [if_pos h] at he2
        obtain ⟨e, he, heq⟩ := List.mem_map.mp he2
        have hsigs := hsig e he
        by_cases hid : e.id = x.id
        · have hid2 : e2.id = e.id := by
            rw [← heq]
            simp [hid]
          have hsem : e2.semanticScore
              = if e.semanticScore.isNone then x.semanticScore
                else e.semanticScore := by
            rw [← heq]
            simp [hid]
          have hfts : e2.ftsRank
              = if e.ftsRank.isNone then x.ftsRank else e.ftsRank := by
            rw [← heq]
            simp [hid]
          have hent : e2.entityMatch
              = if e.entityMatch.isNone then x.entityMatch
                else e.entityMatch := by
            rw [← heq]
            simp [hid]
          have hfx : List.filter (fun r => r.id = e.id) [x] = [x] := by
            simp [hid]
          refine ⟨?_, ?_, ?_⟩
          · rw [hsem, hid2, List.filter_append, hfx, List.findSome?_append]
            rcases hes : e.semanticScore with _ | v
            · rw [hsigs.1.symm.trans hes]
              simp [findSome?_singleton, hes]
            · rw [hsigs.1.symm.trans hes]
              simp [hes]
          · rw [hfts, hid2, List.filter_append, hfx, List.findSome?_append]
            rcases hes : e.ftsRank with _ | v
            · rw [hsigs.2.1.symm.trans hes]
              simp [findSome?_singleton, hes]
            · rw [hsigs.2.1.symm.trans hes]
              simp [hes]
          · rw [hent, hid2, List.filter_append, hfx, List.findSome?_append]
            rcases hes : e.entityMatch with _ | v
            · rw [hsigs.2.2.symm.trans hes]
              simp [findSome?_singleton, hes]
            · rw [hsigs.2.2.symm.trans hes]
              simp [hes]
        · have hee : e2 = e := by
            rw [← heq]
            simp [hid]
          subst hee
          have hfx : List.filter (fun r => r.id = e2.id) [x] = [] := by
            rw [List.filter_eq_nil_iff]
            intro a ha
            rw [List.mem_singleton] at ha
            subst ha
            simp only [decide_eq_true_eq]
            exact fun hxe => hid hxe.symm
          refine ⟨?_, ?_, ?_⟩
          · rw [List.filter_append, hfx, List.append_nil]
            exact hsigs.1
          · rw [List.filter_append, hfx, List.append_nil]
            exact hsigs.2.1
          · rw [List.filter_append, hfx, List.append_nil]
            exact hsigs.2.2
      · rw [if_neg h] at he2
        rcases List.mem_append.mp he2 with he2 | he2
        · have hsigs := hsig e2 he2
          have hne : e2.id ≠ x.id := by
            intro hx
            apply h
            rw [anyId_eq]
            rw [← hx]
            exact List.mem_map.mpr ⟨e2, he2, rfl⟩
          have hfx : List.filter (fun r => r.id = e2.id) [x] = [] := by
            rw [List.filter_eq_nil_iff]
            intro a ha
            rw [List.mem_singleton] at ha
            subst ha
            simp only [decide_eq_true_eq]
            exact fun hxe => hne hxe.symm
          refine ⟨?_, ?_, ?_⟩
          · rw [List.filter_append, hfx, List.append_nil]
            exact hsigs.1
          · rw [List.filter_append, hfx, List.append_nil]
            exact hsigs.2.1
          · rw [List.filter_append, hfx, List.append_nil]
            exact hsigs.2.2
        · rw [List.mem_singleton] at he2
          subst he2
          have hpf : processed.filter (fun r => r.id = e2.id) = [] := by
            rw [List.filter_eq_nil_iff]
            intro rr hrr hrrid
            apply h
            rw [anyId_eq]
            refine (hmem e2.id).mpr ?_
            refine List.mem_map.mpr ⟨rr, hrr, ?_⟩
            simpa using hrrid
          have hfx : List.filter (fun r => r.id = e2.id) [e2] = [e2] := by
            simp
          refine ⟨?_, ?_, ?_⟩
          · rw [List.filter_append, hpf, List.nil_append, hfx,
              findSome?_singleton]
          · rw [List.filter_append, hpf, List.nil_append, hfx,
              findSome?_singleton]
          · rw [List.filter_append, hpf, List.nil_append, hfx,
              findSome?_singleton]

theorem mergeResults_signals (rs : List RItem) :
    ∀ it ∈ mergeResults rs,
      it.semanticScore = (rs.filter (fun r => r.id = it.id)).findSome?
        (fun r => r.semanticScore) ∧
      it.ftsRank = (rs.filter (fun r => r.id = it.id)).findSome?
        (fun r => r.ftsRank) ∧
      it.entityMatch = (rs.filter (fun r => r.id = it.id)).findSome?
        (fun r => r.entityMatch) := by
  intro it hit
  have h := foldl_insertMerge_invariant rs [] [] (by simp) (by simp) it hit
  simpa using h

theorem rwm_ids_nodup (m : Model) (now : PyDateTime) (userId query : String)
    (sessionId : Option String) (sources : Option (List String))
    (timeFilter entityFilter : Option String) (includeEpisodic : Bool)
    (lim : Nat)
    (h1 : (m.items.map (fun k => k.id)).Nodup)
    (h2 : (m.messages.map (fun msg => msg.id)).Nodup)
    (h4 : (m.sessions.map (fun s => s.id)).Nodup)
    (h3 : ∀ msg ∈ m.messages, ∀ k ∈ m.items, msg.id ≠ k.id) :
    (((retrieveWithMemory m now userId query sessionId sources timeFilter
      entityFilter includeEpisodic lim).items).map (fun e => e.id)).Nodup := by
  simp only [retrieveWithMemory]
  apply nodup_map_id_sortTake
  rw [List.map_append]
  refine List.Nodup.append ?_ ?_ ?_
  · apply dedupAppend_nodup
    apply dedupAppend_nodup
    exact retrieve_ids_nodup m now userId query _ _ _ _ _ _ _
  · by_cases hie : includeEpisodic = true
    · rw [if_pos hie]
      exact getEpisodicMemory_ids_nodup m now userId query sessionId 3 h2 h4
    · rw [if_neg hie]
      simp
  · intro x hxs hxe
    obtain ⟨e, he, heid⟩ := List.mem_map.mp hxs
    obtain ⟨e2, he2, he2id⟩ := List.mem_map.mp hxe
    have hkfact : ∃ k ∈ m.items, e.id = k.id := by
      rcases dedupAppend_subset _ _ e he with he | he
      · rcases dedupAppend_subset _ _ e he with he | he
        · exact retrieve_ids_subset m now userId query _ _ _ _ _ _ _ e he
        · rcases mem_ite_list he with he | he
          · simp at he
          · exact metadataSearch_ids m.items userId _ _ _ _ _ e he
      · rcases mem_ite_list he with he | he
        · exact getMostRecent_ids m.items userId _ _ e he
        · simp at he
    obtain ⟨k, hk, hkid⟩ := hkfact
    have hmsgfact : ∃ msg ∈ m.messages, e2.id = msg.id := by
      rcases mem_ite_list he2 with he2 | he2
      · exact getEpisodicMemory_ids_subset m now userId query sessionId 3 e2 he2
      · simp at he2
    obtain ⟨msg, hmsg, hmsgid⟩ := hmsgfact
    exact h3 msg hmsg k hk (by rw [← hmsgid, he2id, ← heid, hkid])

/-- Claim C1 (confirmed): the merge deduplicates by item id: for every
merged result set the ids are pairwise distinct, an id appears in the
merged set exactly when some input record carries it, and each merged
record carries the first non-null semantic score, full-text rank and
entity match among the input records with its id; and the final item list
of retrieve_with_memory has pairwise distinct ids, given the database key
constraints (distinct knowledge-item ids, distinct chat-message ids,
distinct chat-session ids, and message ids distinct from item ids). -/
theorem merge_dedup_invariant :
    (∀ rs : List RItem,
      ((mergeResults rs).map (fun e => e.id)).Nodup ∧
      (∀ b : String, b ∈ (mergeResults rs).map (fun e => e.id)
        ↔ b ∈ rs.map (fun e => e.id)) ∧
      (∀ it ∈ mergeResults rs,
        it.semanticScore = (rs.filter (fun r => r.id = it.id)).findSome?
          (fun r => r.semanticScore) ∧
        it.ftsRank = (rs.filter (fun r => r.id = it.id)).findSome?
          (fun r => r.ftsRank) ∧
        it.entityMatch = (rs.filter (fun r => r.id = it.id)).findSome?
          (fun r => r.entityMatch))) ∧
    (∀ (m : Model) (now : PyDateTime) (userId query : String)
      (sessionId : Option String) (sources : Option (List String))
      (timeFilter entityFilter : Option String) (includeEpisodic : Bool)
      (lim : Nat),
      (m.items.map (fun k => k.id)).Nodup →
      (m.messages.map (fun msg => msg.id)).Nodup →
      (m.sessions.map (fun s => s.id)).Nodup →
      (∀ msg ∈ m.messages, ∀ k ∈ m.items, msg.id ≠ k.id) →
      (((retrieveWithMemory m now userId query sessionId sources timeFilter
        entityFilter includeEpisodic lim).items).map (fun e => e.id)).Nodup) :=
  ⟨fun rs => ⟨mergeResults_nodup rs, fun b => mergeResults_mem_id rs b,
    mergeResults_signals rs⟩,
   fun m now userId query sessionId sources timeFilter entityFilter
       includeEpisodic lim h1 h2 h4 h3 =>
     rwm_ids_nodup m now userId query sessionId sources timeFilter
       entityFilter includeEpisodic lim h1 h2 h4 h3⟩

theorem merge_dedup_invariant_witness :
    (((retrieveWithMemory wRwmModel wNow "u" "hello" none none none none
      true 10).items).map (fun e => e.id)).Nodup :=
  merge_dedup_invariant.2 wRwmModel wNow "u" "hello" none none none none
    true 10 (by with_unfolding_all decide) (by with_unfolding_all decide)
    (by with_unfolding_all decide) (by with_unfolding_all decide)
